import Mathlib

/-!
Shallow embedding of the CyberAttackSimulator core (the cyberwheel package)
and proofs about its specified behaviour.

Each definition is translated from one source function and carries a comment
naming it.  Machine-level details that Python leaves implicit (mutation,
dictionary semantics, exceptions, random choices) are made explicit:
exceptions become Except values, random draws become an index argument
interpreted modulo the size of the drawn-from collection, and dictionaries
become insertion-ordered association lists.
-/

set_option autoImplicit false

namespace CyberSim

/-! ## Firewall evaluation
Source: cyberwheel/network/network_base.py (Network.is_traffic_allowed and
its nested helpers) and cyberwheel/network/network_object.py. -/

/-- A firewall rule as consulted by Network.is_traffic_allowed, which reads
the entries src, dest, port and proto of each rule.  The port entry is only
ever compared through str(), so it is kept as the string image of the
configured value.  Defaults follow the FirewallRule model ('all', 'all',
'tcp'); dest defaults to 'all' as in the shipped configurations. -/
structure FirewallRule where
  src : String := "all"
  dest : String := "all"
  port : String := "all"
  proto : String := "tcp"
deriving DecidableEq, Repr

/-- Router: name plus inbound firewall rules (cyberwheel/network/router.py). -/
structure RouterObj where
  name : String
  firewall_rules : List FirewallRule := []
deriving DecidableEq, Repr

/-- Subnet: name, owning router, inbound firewall rules
(cyberwheel/network/subnet.py). -/
structure SubnetObj where
  name : String
  router : RouterObj
  firewall_rules : List FirewallRule := []
deriving DecidableEq, Repr

/-- Host: name, owning subnet, inbound firewall rules
(cyberwheel/network/host.py). -/
structure HostObj where
  name : String
  subnet : SubnetObj
  firewall_rules : List FirewallRule := []
deriving DecidableEq, Repr

/-- A NetworkObject destination of traffic: Host, Subnet or Router. -/
inductive NetworkObj where
  | host (h : HostObj)
  | subnet (s : SubnetObj)
  | router (r : RouterObj)
deriving DecidableEq, Repr

def NetworkObj.name : NetworkObj → String
  | .host h => h.name
  | .subnet s => s.name
  | .router r => r.name

def NetworkObj.firewall_rules : NetworkObj → List FirewallRule
  | .host h => h.firewall_rules
  | .subnet s => s.firewall_rules
  | .router r => r.firewall_rules

/-- The port argument of is_traffic_allowed: an integer (or numeric string),
the string "all", or Python None. -/
inductive PortArg where
  | num (n : Int)
  | all
  | null
deriving DecidableEq, Repr

/-- Network._is_valid_port_number.  A None port reaches the comparison
"port > 65535" and raises a TypeError in Python; that is surfaced as an
error value here. -/
def is_valid_port_number : PortArg → Except String Bool
  | .all => .ok true
  | .num n => .ok (decide (¬(n > 65535 ∨ n < 1)))
  | .null => .error "TypeError: NoneType port"

/-- The str() image of the port argument, as built by str(port) in
_check_rules. -/
def portArgStr : PortArg → String
  | .num n => toString n
  | .all => "all"
  | .null => "None"

/-- Python str.lower(), written over the character list so that it reduces
inside proofs. -/
def py_lower (s : String) : String := String.mk (s.data.map Char.toLower)

/-- _does_src_match, for a Host source (every caller of is_traffic_allowed in
the repository passes a Host as src).  In the type == 'subnet' branch the
source code reads src.router, an attribute a Host does not have, so Python
would raise AttributeError there. -/
def does_src_match (src : HostObj) (rule : FirewallRule) (type : String) :
    Except String Bool :=
  if src.name == rule.src || rule.src == "all" then .ok true
  else if type == "host" then
    .ok (src.subnet.router.name == rule.src || src.subnet.name == rule.src)
  else if type == "subnet" then
    .error "AttributeError: Host object has no attribute router"
  else .ok false

/-- _does_dest_match.  The type == 'host' branch reads dest.subnet and the
type == 'subnet' branch reads dest.router; when the object passed as dest
lacks that attribute Python raises AttributeError. -/
def does_dest_match (dest : NetworkObj) (rule : FirewallRule) (type : String) :
    Except String Bool :=
  if dest.name == rule.dest || rule.dest == "all" then .ok true
  else if type == "host" then
    match dest with
    | .host h => .ok (h.subnet.router.name == rule.dest || h.subnet.name == rule.dest)
    | _ => .error "AttributeError: object has no attribute subnet"
  else if type == "subnet" then
    match dest with
    | .subnet s => .ok (s.router.name == rule.dest)
    | _ => .error "AttributeError: object has no attribute router"
  else .ok false

/-- _does_port_match (the port string is str(port)). -/
def does_port_match (port : String) (rule : FirewallRule) : Bool :=
  rule.port == port || rule.port == "all"

/-- _does_proto_match. -/
def does_proto_match (proto : String) (rule : FirewallRule) : Bool :=
  rule.proto == proto || rule.proto == "all"

/-- _check_rules.  Its loop body either returns True or breaks out of the
whole loop into the final return False, so at most the first rule of
dest.firewall_rules is ever consulted; the recursion below keeps exactly that
shape (the early break is the false result). -/
def check_rules (src : HostObj) (dest : NetworkObj) (port : String)
    (proto : String) (type : String) : Except String Bool :=
  match dest.firewall_rules with
  | [] => .ok false
  | rule :: _ => do
    let smatch ← does_src_match src rule type
    if !smatch then return false
    let dmatch ← does_dest_match dest rule type
    if !dmatch then return false
    if !(does_port_match port rule) then return false
    if !(does_proto_match proto rule) then return false
    return true

/-- Network.is_traffic_allowed.  ICMP skips port validation; a Host
destination is checked against its router's, its subnet's and its own rules
in that order; a Subnet destination against its router's and its own; a
Router destination against its own. -/
def is_traffic_allowed (src : HostObj) (dest : NetworkObj) (port : PortArg)
    (proto : String) : Except String Bool := do
  if py_lower proto == "icmp" then
    pure ()
  else
    let valid ← is_valid_port_number port
    if !valid then
      throw ("ValueError: " ++ portArgStr port ++ " is not a valid port number")
  let p := portArgStr port
  match dest with
  | .host h => do
    let a1 ← check_rules src (.router h.subnet.router) p proto "host"
    if !a1 then return false
    let a2 ← check_rules src (.subnet h.subnet) p proto "host"
    if !a2 then return false
    let a3 ← check_rules src (.host h) p proto "host"
    if !a3 then return false
    return true
  | .subnet s => do
    let a1 ← check_rules src (.router s.router) p proto "subnet"
    if !a1 then return false
    let a2 ← check_rules src (.subnet s) p proto "subnet"
    if !a2 then return false
    return true
  | .router r => do
    let a1 ← check_rules src (.router r) p proto "router"
    if !a1 then return false
    return true

/-- Replace an object's own rule list, for stating that check_rules consults
only the head rule. -/
def NetworkObj.with_rules : NetworkObj → List FirewallRule → NetworkObj
  | .host h, rules => .host { h with firewall_rules := rules }
  | .subnet s, rules => .subnet { s with firewall_rules := rules }
  | .router r, rules => .router { r with firewall_rules := rules }

/-! ## Decoy lifecycle and the subnet address pool
Source: cyberwheel/network/subnet.py (assign_dhcp_lease) and
cyberwheel/network/network_base.py (add_host_to_subnet, create_decoy_host,
remove_host_from_subnet, remove_decoy_host).  Only the state these operations
touch is carried: the graph's Host nodes, the one subnet they address, and
the decoy registry; IP addresses are abstracted to naturals. -/

/-- The Host data relevant to the decoy lifecycle: Host.__eq__ compares by
name; ip_address is unset until a DHCP lease assigns it. -/
structure NetHost where
  name : String
  ip_address : Option Nat := Option.none
  decoy : Bool := false
deriving DecidableEq, Repr

/-- The mutable Subnet state: the pool of available addresses and the
connected-host list. -/
structure SubnetState where
  available_ips : List Nat
  connected_hosts : List NetHost := []
deriving DecidableEq, Repr

/-- The Network state these operations touch: the Host entries of self.graph
(keyed by name), the subnet the hosts live on, and self.decoys. -/
structure NetworkState where
  host_nodes : List NetHost := []
  subnet : SubnetState
  decoys : List NetHost := []
deriving DecidableEq, Repr

/-- Subnet.assign_dhcp_lease.  random.choice is modelled by the index k taken
modulo the pool size; list.remove then removes the first occurrence of the
chosen address.  The host object is appended to connected_hosts and then
mutated in place with the leased address, so the stored entry carries it. -/
def assign_dhcp_lease (s : SubnetState) (host : NetHost) (k : Nat) :
    Except String (SubnetState × NetHost) :=
  match s.available_ips with
  | [] => .error "ValueError: No available IP addresses in the subnet."
  | a :: rest =>
    let pool := a :: rest
    let ip_lease := pool.get ⟨k % pool.length, Nat.mod_lt _ (Nat.succ_pos _)⟩
    let leased := { host with ip_address := some ip_lease }
    .ok ({ available_ips := pool.erase ip_lease,
           connected_hosts := s.connected_hosts ++ [leased] }, leased)

/-- networkx graph.add_node keyed by name: a node with the same name is
overwritten, otherwise the node is appended. -/
def graph_add_node (nodes : List NetHost) (h : NetHost) : List NetHost :=
  if nodes.any (fun g => g.name == h.name) then
    nodes.map (fun g => if g.name == h.name then h else g)
  else nodes ++ [h]

/-- Network.add_host_to_subnet: the Host is created, added as a graph node,
leased an address, and finally given its decoy flag.  Graph node, subnet
entry and returned value are one mutable Python object, so the embedding
builds the final field values once and shares them. -/
def add_host_to_subnet (st : NetworkState) (name : String) (decoy : Bool)
    (k : Nat) : Except String (NetworkState × NetHost) := do
  let (s, host) ← assign_dhcp_lease st.subnet { name := name, decoy := decoy } k
  .ok ({ st with host_nodes := graph_add_node st.host_nodes host, subnet := s },
       host)

/-- Network.create_decoy_host: add_host_to_subnet with decoy=True, then
register the host in self.decoys. -/
def create_decoy_host (st : NetworkState) (name : String) (k : Nat) :
    Except String (NetworkState × NetHost) := do
  let (st1, host) ← add_host_to_subnet st name true k
  .ok ({ st1 with decoys := st1.decoys ++ [host] }, host)

/-- Network.remove_host_from_subnet: the host's address (when set) is
appended back to the pool unconditionally; the graph node and the subnet's
connected entry are removed only when a Host of that name is in the graph. -/
def remove_host_from_subnet (st : NetworkState) (host : NetHost) : NetworkState :=
  let st1 :=
    match host.ip_address with
    | some ip =>
        { st with subnet :=
            { st.subnet with available_ips := st.subnet.available_ips ++ [ip] } }
    | Option.none => st
  if st1.host_nodes.any (fun h => h.name == host.name) then
    { st1 with
      host_nodes := st1.host_nodes.filter (fun h => h.name != host.name),
      subnet := { st1.subnet with
        connected_hosts :=
          st1.subnet.connected_hosts.filter (fun h => h.name != host.name) } }
  else st1

/-- Host.__eq__ returns False whenever the other value is not a Host, so no
element of the decoy list ever compares equal to the integer loop index. -/
def host_eq_py_int (_h : NetHost) (_i : Nat) : Bool := false

/-- Python list.remove(x) with x the integer i: remove the first element
comparing equal to x, or raise ValueError when none does. -/
def py_list_remove_int (l : List NetHost) (i : Nat) :
    Except String (List NetHost) :=
  if l.any (fun h => host_eq_py_int h i) then
    .ok (l.eraseP (fun h => host_eq_py_int h i))
  else .error "ValueError: list.remove(x): x not in list"

/-- Network.remove_decoy_host.  The first loop finds the Host graph node with
the argument's name and calls remove_host_from_subnet; the second loop binds
the integer index i of the first matching registry entry (or the last index
when none matches) and then executes self.decoys.remove(i).  An exception
leaves the mutations already made in place, so the result is the final state
paired with the raised error, if any. -/
def remove_decoy_host (st : NetworkState) (host : NetHost) :
    NetworkState × Option String :=
  let st1 :=
    if st.host_nodes.any (fun h => h.name == host.name) then
      remove_host_from_subnet st host
    else st
  match st1.decoys with
  | [] => (st1, some "NameError: name i is not defined")
  | _ :: _ =>
    let i := (st1.decoys.findIdx? (fun d => d.name == host.name)).getD
      (st1.decoys.length - 1)
    match py_list_remove_int st1.decoys i with
    | .ok l => ({ st1 with decoys := l }, Option.none)
    | .error e => (st1, some e)

/-! ## Service equality, hashing and host-type application
Source: cyberwheel/network/service.py (Service.__key, __hash__, __eq__) and
cyberwheel/network/host.py (Host._apply_host_type). -/

/-- Service (cyberwheel/network/service.py). -/
structure Service where
  name : String
  port : Int := 1
  protocol : String := "tcp"
  version : Option String := Option.none
  vulns : List String := []
  description : Option String := Option.none
  decoy : Bool := false
deriving DecidableEq, Repr

/-- Service.__key: the tuple Service.__hash__ hashes. -/
def Service.key (s : Service) :
    String × Int × String × Option String × Option String × Bool :=
  (s.name, s.port, s.protocol, s.version, s.description, s.decoy)

/-- Service.__eq__: only port, protocol and version are compared. -/
def service_eq (a b : Service) : Bool :=
  a.port == b.port && a.protocol == b.protocol && a.version == b.version

/-- Membership test of a Python set of Services: an element is found only
when a stored element is in the same hash bucket AND compares equal.
__hash__ hashes Service.key, so, absent hash collisions, same bucket means
equal keys. -/
def py_set_member (l : List Service) (s : Service) : Bool :=
  l.any (fun t => t.key == s.key && service_eq t s)

/-- Insertion into a Python set of Services (iteration order modelled as
insertion order; the claims proved about it do not depend on order). -/
def py_set_insert (l : List Service) (s : Service) : List Service :=
  if py_set_member l s then l else l ++ [s]

def py_set_of_list (l : List Service) : List Service :=
  l.foldl py_set_insert []

def py_set_union (l r : List Service) : List Service :=
  r.foldl py_set_insert l

/-- Host._apply_host_type, service part: when the host already has services,
the new list is set(self.services).union(set(host_type.services)); otherwise
it is list(host_type.services). -/
def apply_host_type_services (host_services type_services : List Service) :
    List Service :=
  if host_services.isEmpty then type_services
  else py_set_union (py_set_of_list host_services) (py_set_of_list type_services)

/-! ## Alerts and the detector pipeline
Source: cyberwheel/detectors/handler.py (DetectorHandler) and
cyberwheel/detectors/example_detectors.py (PerfectDetector). -/

/-- Modelled from the spec: the module cyberwheel.detectors.alert is not
under src/.  The spec defines an Alert as (source host or none, destination
host set, service set, technique-identifier set); hosts, services and
techniques are abstracted to their names. -/
structure Alert where
  src_host : Option String := Option.none
  dst_hosts : List String := []
  services : List String := []
  techniques : List String := []
deriving DecidableEq, Repr

/-- The detectors that can sit on an edge; PerfectDetector.obs returns the
alerts unchanged (example_detectors.py). -/
inductive DetectorSpec where
  | perfect
deriving DecidableEq, Repr

def detector_obs : DetectorSpec → List Alert → List Alert
  | .perfect, alerts => alerts

/-- Generic insertion-ordered dictionary update: assignment to an existing
key overwrites it, otherwise the binding is appended (Python dict). -/
def dict_insert {α : Type} (d : List (String × α)) (k : String) (v : α) :
    List (String × α) :=
  if d.any (fun p => p.1 == k) then
    d.map (fun p => if p.1 == k then (k, v) else p)
  else d ++ [(k, v)]

/-- In-place modification of an existing dict entry (Python mutates the
stored object); a missing key is a no-op here and every call site is guarded
by a presence check. -/
def dict_modify {α : Type} (d : List (String × α)) (k : String) (f : α → α) :
    List (String × α) :=
  d.map (fun p => if p.1 == k then (p.1, f p.2) else p)

/-- The DetectorHandler's directed graph: the edges in iteration order, each
carrying an optional detector, plus the per-node detector_output buffers
(absent node defaults to []). -/
structure DetectorGraph where
  edges : List (String × String × Option DetectorSpec)
  buffers : List (String × List Alert) := []
deriving DecidableEq, Repr

/-- nodes.data('detector_output', default=[]) for one node. -/
def buffer_of (bufs : List (String × List Alert)) (n : String) : List Alert :=
  (List.lookup n bufs).getD []

/-- The inner loop of DetectorHandler.obs: append each result alert to the
destination buffer unless an equal alert is already there. -/
def append_unique (buf result : List Alert) : List Alert :=
  result.foldl (fun b r => if b.contains r then b else b ++ [r]) buf

/-- DetectorHandler.obs: walk the edges in order; an edge out of 'start'
carries the incoming alerts, a detector-less edge passes its source buffer
through, any other edge applies its detector to the source buffer; the
result is deduplicated into the destination buffer.  Returns the updated
graph and the 'end' buffer. -/
def handler_obs (g : DetectorGraph) (perfect_alerts : List Alert) :
    DetectorGraph × List Alert :=
  let bufs := g.edges.foldl
    (fun bufs e =>
      let result :=
        if e.1 == "start" then perfect_alerts
        else
          match e.2.2 with
          | some d => detector_obs d (buffer_of bufs e.1)
          | Option.none => buffer_of bufs e.1
      dict_insert bufs e.2.1 (append_unique (buffer_of bufs e.2.1) result))
    g.buffers
  ({ g with buffers := bufs }, buffer_of bufs "end")

/-- DetectorHandler.reset: every node's detector_output becomes []; with the
default-[] read that is the empty buffer map. -/
def handler_reset (g : DetectorGraph) : DetectorGraph :=
  { g with buffers := [] }

/-! ### Detector-graph construction and validation
DetectorHandler._from_config builds the graph from the configured adjacency
list, raising KeyError when a non-start/end entry node has no init_info
definition, then _validate_graph_structure checks the degrees. -/

/-- The configuration contents _from_config reads: the adjacency list (each
entry is a node followed by its children) and the set of node names defined
in init_info. -/
structure DetectorConfig where
  adjacency_list : List (String × List String)
  init_info : List String
deriving DecidableEq, Repr

/-- networkx node insertion order: entry heads and children as encountered,
first occurrence kept. -/
def config_nodes (c : DetectorConfig) : List String :=
  c.adjacency_list.foldl
    (fun acc e =>
      (e.1 :: e.2).foldl (fun a n => if a.contains n then a else a ++ [n]) acc)
    []

/-- The edge set of the built graph (DiGraph keeps one copy of a repeated
edge). -/
def config_edges (c : DetectorConfig) : List (String × String) :=
  c.adjacency_list.foldl
    (fun acc e =>
      (e.2.map (fun child => (e.1, child))).foldl
        (fun a ed => if a.contains ed then a else a ++ [ed]) acc)
    []

def in_degree (c : DetectorConfig) (n : String) : Nat :=
  (config_edges c).countP (fun e => e.2 == n)

def out_degree (c : DetectorConfig) (n : String) : Nat :=
  (config_edges c).countP (fun e => e.1 == n)

/-- The body of the build loop of _from_config: an adjacency entry whose
head is neither 'start' nor 'end' must be defined in init_info, otherwise
KeyError is raised. -/
def build_node_check (c : DetectorConfig) (e : String × List String) :
    Except String Unit :=
  if e.1 != "start" && e.1 != "end" && !(c.init_info.contains e.1) then
    .error ("KeyError: Node " ++ e.1 ++ " not defined in init_info")
  else .ok ()

/-- The build loop of _from_config. -/
def from_config_build (c : DetectorConfig) : Except String Unit :=
  c.adjacency_list.forM (build_node_check c)

/-- The body of the in-degree loop of _validate_graph_structure. -/
def in_degree_check (c : DetectorConfig) (node : String) : Except String Unit :=
  if node == "start" && in_degree c node > 0 then
    .error "ValueError: start node must have an in-degree of 0"
  else if node != "start" && in_degree c node == 0 then
    .error ("ValueError: Node " ++ node ++ " must have an in-degree > 0")
  else .ok ()

/-- The body of the out-degree loop of _validate_graph_structure. -/
def out_degree_check (c : DetectorConfig) (node : String) : Except String Unit :=
  if node == "end" && out_degree c node > 0 then
    .error "ValueError: end node must have an out-degree of 0"
  else if node != "end" && out_degree c node == 0 then
    .error ("ValueError: Node " ++ node ++ " must have an out-degree > 0")
  else .ok ()

/-- DetectorHandler._validate_graph_structure: one pass over in-degrees, one
over out-degrees. -/
def validate_graph_structure (c : DetectorConfig) : Except String Unit := do
  (config_nodes c).forM (in_degree_check c)
  (config_nodes c).forM (out_degree_check c)

/-- DetectorHandler construction (__init__ → _from_config → validation):
succeeds exactly when no step raises. -/
def detector_from_config (c : DetectorConfig) : Except String Unit := do
  from_config_build c
  validate_graph_structure c

def except_ok {α : Type} : Except String α → Bool
  | .ok _ => true
  | .error _ => false

/-- The structural rules exactly as the claim states them: 'start' must have
in-degree 0, 'end' must have out-degree 0, every other node must have
in-degree ≥ 1 and out-degree ≥ 1 and must reference a defined detector. -/
def claim_structural_rules (c : DetectorConfig) : Prop :=
  ∀ node ∈ config_nodes c,
    (node = "start" → in_degree c node = 0) ∧
    (node = "end" → out_degree c node = 0) ∧
    (node ≠ "start" → node ≠ "end" →
      in_degree c node ≥ 1 ∧ out_degree c node ≥ 1 ∧ node ∈ c.init_info)

/-- The structural rules the code actually enforces: additionally every
non-start node (including 'end') needs in-degree ≥ 1 and every non-end node
(including 'start') needs out-degree ≥ 1. -/
def code_structural_rules (c : DetectorConfig) : Prop :=
  ∀ node ∈ config_nodes c,
    (node = "start" → in_degree c node = 0) ∧
    (node ≠ "start" → in_degree c node ≥ 1) ∧
    (node = "end" → out_degree c node = 0) ∧
    (node ≠ "end" → out_degree c node ≥ 1) ∧
    (node ≠ "start" → node ≠ "end" → node ∈ c.init_info)

instance claim_structural_rules_decidable (c : DetectorConfig) :
    Decidable (claim_structural_rules c) := by
  unfold claim_structural_rules; infer_instance

instance code_structural_rules_decidable (c : DetectorConfig) :
    Decidable (code_structural_rules c) := by
  unfold code_structural_rules; infer_instance

/-! ## The history observation vector
Source: cyberwheel/envs/observation/history.py (HistoryObservation) and
cyberwheel/envs/cyberwheel_dynamic.py (host_to_index_mapping and the
observation-space setup in DynamicCyberwheel.__init__). -/

/-- A numpy vector of length len; entries are read through val (assignments
out of 0..len-1 do not occur at the call sites: the mapping indices stay
below half the length). -/
structure ObsVec where
  len : Nat
  val : Nat → Nat

/-- obs_vec[i] = x. -/
def obs_set (v : ObsVec) (i : Nat) (x : Nat) : ObsVec :=
  { v with val := fun j => if j = i then x else v.val j }

/-- HistoryObservation state: shape, the host-name → index mapping, and the
observation vector. -/
structure HistoryObservation where
  shape : Nat
  mapping : List (String × Nat)
  obs_vec : ObsVec

/-- HistoryObservation.__init__: obs_vec = np.zeros(shape). -/
def history_observation_init (shape : Nat) (mapping : List (String × Nat)) :
    HistoryObservation :=
  { shape := shape, mapping := mapping,
    obs_vec := { len := shape, val := fun _ => 0 } }

/-- HistoryObservation.create_obs_vector: zero the first half (up to
barrier = len // 2), then for every alert whose src_host is mapped set both
the host's flag and its history bit at index + barrier. -/
def create_obs_vector (h : HistoryObservation) (alerts : List Alert) :
    HistoryObservation :=
  let barrier := h.obs_vec.len / 2
  let v0 : ObsVec :=
    { h.obs_vec with val := fun j => if j < barrier then 0 else h.obs_vec.val j }
  let v := alerts.foldl
    (fun v alert =>
      match alert.src_host with
      | some nm =>
        match List.lookup nm h.mapping with
        | some index => obs_set (obs_set v index 1) (index + barrier) 1
        | Option.none => v
      | Option.none => v)
    v0
  { h with obs_vec := v }

/-- HistoryObservation.reset_obs_vector. -/
def reset_obs_vector (h : HistoryObservation) : HistoryObservation :=
  { h with obs_vec := { len := h.shape, val := fun _ => 0 } }

/-- host_to_index_mapping: non-decoy hosts enumerated in order. -/
def host_to_index_mapping (nondecoy_hosts : List String) : List (String × Nat) :=
  (nondecoy_hosts.enum).map (fun p => (p.2, p.1))

/-- DynamicCyberwheel.__init__ observation setup: the observation space is a
vector of length 2 * len(network.get_hosts()) and the converter is a
HistoryObservation of that shape over the non-decoy mapping. -/
def dynamic_cyberwheel_obs_init (all_hosts nondecoy_hosts : List String) :
    HistoryObservation :=
  history_observation_init (2 * all_hosts.length)
    (host_to_index_mapping nondecoy_hosts)

/-! ## The red (attacker) agent
Source: cyberwheel/agents/red/red_agent_base.py (KnownHostInfo),
cyberwheel/agents/red/art_agent.py (ARTAgent.run_action, act,
handle_network_change, _ping_sweep, _port_scan, _lateral_move,
add_host_info), cyberwheel/agents/red/actions/art_killchain_phases.py
(success semantics of sim_execute) and
cyberwheel/agents/red/strategies (ServerDowntime, DFSImpact).

The sim_execute methods mark a PingSweep or PortScan successful
unconditionally, and mark a kill-chain phase or LateralMovement successful
exactly when its valid-technique list for the target is non-empty; that
per-host, per-phase emptiness test is carried by the environment's valid
field.  Command execution on hosts and the textual history log do not feed
back into any modelled behaviour and are omitted. -/

/-- The action classes ARTAgent.run_action can return. -/
inductive RedActionType where
  | pingsweep
  | portscan
  | lateral_movement
  | discovery
  | privilege_escalation
  | impact
deriving DecidableEq, Repr

/-- KnownHostInfo, restricted to the fields the agent logic reads. -/
structure KnownHostInfo where
  last_step : Int := -1
  ports_scanned : Bool := false
  ping_sweeped : Bool := false
  type : String := "Unknown"
  impacted : Bool := false
deriving DecidableEq, Repr

/-- KnownHostInfo.update_killchain_step: self.last_step += 1. -/
def KnownHostInfo.update_killchain_step (i : KnownHostInfo) : KnownHostInfo :=
  { i with last_step := i.last_step + 1 }

/-- KnownHostInfo.get_next_step: self.last_step + 1. -/
def KnownHostInfo.get_next_step (i : KnownHostInfo) : Int := i.last_step + 1

/-- The static network facts the agent consults: the current host names, the
subnet of each host, the connected hosts of each subnet, host_type.name of
each host, and whether the services map lists a valid technique for a host
and phase (the success gate of sim_execute). -/
structure RedEnv where
  network_hosts : List String
  subnet_of : String → String
  subnet_hosts : String → List String
  host_type_of : String → String
  valid : String → RedActionType → Bool

/-- The agent state: the kill chain, current_host, history.hosts and the
scanned flag of history.subnets (insertion-ordered dicts), the two
HybridSetLists, and tracked_hosts (the services-map keys). -/
structure AgentState where
  killchain : List RedActionType := [.discovery, .privilege_escalation, .impact]
  current_host : String
  hosts : List (String × KnownHostInfo) := []
  subnets : List (String × Bool) := []
  unimpacted_servers : List String := []
  unknowns : List String := []
  tracked_hosts : List String := []
deriving DecidableEq, Repr

/-- HybridSetList.add: append only when not yet present. -/
def hsl_add (l : List String) (v : String) : List String :=
  if l.contains v then l else l ++ [v]

/-- HybridSetList.remove: remove when present. -/
def hsl_remove (l : List String) (v : String) : List String :=
  if l.contains v then l.erase v else l

/-- Does the needle occur at the start of the list? -/
def starts_with_chars : List Char → List Char → Bool
  | _, [] => true
  | [], _ :: _ => false
  | a :: as, b :: bs => a == b && starts_with_chars as bs

/-- Does the needle occur contiguously anywhere in the list? -/
def has_sublist_chars : List Char → List Char → Bool
  | [], needle => needle.isEmpty
  | a :: rest, needle =>
    starts_with_chars (a :: rest) needle || has_sublist_chars rest needle

/-- 'server' in s / 'workstation' in s: Python substring membership. -/
def str_contains (hay needle : String) : Bool :=
  has_sublist_chars hay.data needle.data

/-- The per-host body of ARTAgent._ping_sweep: a new entry is created with
sweeped=True, an existing entry has ping_sweeped set; new names join the
unknowns list. -/
def ping_sweep_host_step (st : AgentState) (hn : String) : AgentState :=
  match List.lookup hn st.hosts with
  | some _ =>
    { st with hosts :=
                dict_modify st.hosts hn (fun i => { i with ping_sweeped := true }) }
  | Option.none =>
    { st with hosts := dict_insert st.hosts hn { ping_sweeped := true },
              unknowns := hsl_add st.unknowns hn }

/-- ARTAgent._ping_sweep, on success (sim_execute always succeeds): every
host connected to the target's subnet becomes known. -/
def ping_sweep_update (env : RedEnv) (s : AgentState) (target : String) :
    AgentState :=
  (env.subnet_hosts (env.subnet_of target)).foldl ping_sweep_host_step s

/-- ARTAgent.add_host_info, 'subnet_scanned' key: a subnet not yet in
history.subnets is recorded as scanned; then every connected host that is
not yet known is added with default info and joins the unknowns.  (The
elif branch on history.mapping is unreachable because mapping and subnets
are always extended together.) -/
def add_known_host_step (st : AgentState) (hn : String) : AgentState :=
  if (List.lookup hn st.hosts).isNone then
    { st with hosts := dict_insert st.hosts hn {},
              unknowns := hsl_add st.unknowns hn }
  else st

def add_host_info_subnet_scanned (env : RedEnv) (s : AgentState)
    (subnet_name : String) : AgentState :=
  let s1 :=
    if (List.lookup subnet_name s.subnets).isNone then
      { s with subnets := dict_insert s.subnets subnet_name true }
    else s
  (env.subnet_hosts subnet_name).foldl add_known_host_step s1

/-- ARTAgent.add_host_info, 'type' key: a type containing 'server' makes the
host a Server (tracked as unimpacted), one containing 'workstation' a User;
anything else stays Unknown. -/
def add_host_info_type (s : AgentState) (host_name host_type : String) :
    AgentState :=
  if str_contains (py_lower host_type) "server" then
    { s with unimpacted_servers := hsl_add s.unimpacted_servers host_name,
             unknowns := hsl_remove s.unknowns host_name,
             hosts := dict_modify s.hosts host_name
               (fun i => { i with type := "Server" }) }
  else if str_contains (py_lower host_type) "workstation" then
    { s with unknowns := hsl_remove s.unknowns host_name,
             hosts := dict_modify s.hosts host_name
               (fun i => { i with type := "User" }) }
  else
    { s with hosts :=
               dict_modify s.hosts host_name (fun i => { i with type := "Unknown" }) }

/-- ARTAgent.run_action: dispatch on the target's KnownHostInfo — PingSweep
when its subnet is unswept, then PortScan when unscanned, then
LateralMovement when the agent is not on the target, otherwise
killchain[min(next_step, len(killchain) - 1)].  Returns the chosen action,
its success flag, and the updated state.  (In every reachable state
last_step ≥ -1, so the min is ≥ 0; Python's negative-index wraparound for
smaller values is not modelled.) -/
def run_action (env : RedEnv) (s : AgentState) (target : String) :
    Except String (RedActionType × Bool × AgentState) := do
  let host_info ←
    match List.lookup target s.hosts with
    | some i => pure i
    | Option.none => .error "KeyError: unknown target host"
  let step : Int := min host_info.get_next_step ((s.killchain.length : Int) - 1)
  if !host_info.ping_sweeped then
    return (.pingsweep, true, ping_sweep_update env s target)
  else if !host_info.ports_scanned then
    return (.portscan, true,
      { s with hosts :=
                 dict_modify s.hosts target (fun i => { i with ports_scanned := true }) })
  else if s.current_host != target then
    let success := env.valid target .lateral_movement
    return (.lateral_movement, success,
      if success then { s with current_host := target } else s)
  else
    match s.killchain.get? step.toNat with
    | some action => return (action, env.valid target action, s)
    | Option.none => .error "IndexError: killchain"

/-- The two reference strategies. -/
inductive RedStrategyKind where
  | server_downtime
  | dfs_impact
deriving DecidableEq, Repr

/-- random.choice over a non-empty list, modelled by the index k modulo the
length (call sites guard non-emptiness). -/
def py_choice (l : List String) (k : Nat) : String :=
  l.getD (k % l.length) ""

/-- ServerDowntime.select_target / DFSImpact.select_target, returning the
chosen target's name. -/
def select_target (strategy : RedStrategyKind) (s : AgentState) (choice : Nat) :
    Except String (Option String) :=
  match strategy with
  | .server_downtime => do
    let cur ←
      match List.lookup s.current_host s.hosts with
      | some i => pure i
      | Option.none => .error "KeyError: current host unknown"
    if cur.type == "Unknown" || s.unimpacted_servers.contains s.current_host then
      return some s.current_host
    else if s.unimpacted_servers.length > 0 then
      return some (py_choice s.unimpacted_servers choice)
    else if s.unknowns.length > 0 then
      return some (py_choice s.unknowns choice)
    else
      return Option.none
  | .dfs_impact => do
    let cur ←
      match List.lookup s.current_host s.hosts with
      | some i => pure i
      | Option.none => .error "KeyError: current host unknown"
    if cur.last_step == (s.killchain.length : Int) - 1 then
      let unimpacted := (s.hosts.filter
        (fun p => p.2.last_step < (s.killchain.length : Int) - 1)).map (·.1)
      if !unimpacted.isEmpty then
        return some (py_choice unimpacted choice)
      else
        return some s.current_host
    else
      return some s.current_host

/-- The per-host body of ARTAgent.handle_network_change: a host not yet
tracked gets a services-map entry (carried by env.valid) and, when its
subnet is already scanned, a default history entry and membership in
unknowns. -/
def track_new_host (env : RedEnv) (st : AgentState) (hn : String) : AgentState :=
  if st.tracked_hosts.contains hn then st
  else
    let st1 := { st with tracked_hosts := st.tracked_hosts ++ [hn] }
    if (List.lookup (env.subnet_of hn) st1.subnets).getD false then
      { st1 with hosts := dict_insert st1.hosts hn {},
                 unknowns := hsl_add st1.unknowns hn }
    else st1

/-- ARTAgent.handle_network_change. -/
def handle_network_change (env : RedEnv) (s : AgentState) : AgentState :=
  env.network_hosts.foldl (track_new_host env) s

/-- The actions exempt from update_killchain_step in ARTAgent.act. -/
def act_no_update : List RedActionType :=
  [.lateral_movement, .pingsweep, .portscan]

/-- The success branch of ARTAgent.act: advance the kill-chain step unless
the action is exempt, apply the action's metadata to the history (subnet
reveal for PingSweep, host type for Discovery; the remaining metadata keys
touch nothing modelled), and on an Impact mark the host impacted and drop a
Server target from the unimpacted list. -/
def act_success_updates (env : RedEnv) (s1 : AgentState) (target : String)
    (action : RedActionType) : AgentState :=
  let s2 :=
    if !(act_no_update.contains action) then
      { s1 with hosts :=
                  dict_modify s1.hosts target KnownHostInfo.update_killchain_step }
    else s1
  let s3 :=
    match action with
    | .pingsweep => add_host_info_subnet_scanned env s2 (env.subnet_of target)
    | .discovery => add_host_info_type s2 target (env.host_type_of target)
    | _ => s2
  if action == .impact then
    let s4a := { s3 with hosts :=
                           dict_modify s3.hosts target (fun i => { i with impacted := true }) }
    if (List.lookup target s4a.hosts).map (·.type) == some "Server" then
      { s4a with unimpacted_servers := hsl_remove s4a.unimpacted_servers target }
    else s4a
  else s3

/-- ARTAgent.act: handle network changes, select the target, run the action,
and on success apply the bookkeeping of act_success_updates. -/
def act (env : RedEnv) (strategy : RedStrategyKind) (s : AgentState)
    (choice : Nat) : Except String (AgentState × RedActionType × Bool) := do
  let s0 := handle_network_change env s
  let tgt ← select_target strategy s0 choice
  let target ←
    match tgt with
    | some t => pure t
    | Option.none => .error "AttributeError: NoneType has no attribute name"
  let (action, success, s1) ← run_action env s0 target
  if success then
    return (act_success_updates env s1 target action, action, success)
  else
    return (s1, action, success)

/-- The attacker's KnownHostInfo entries never lose last_step progress from
s to s': every tracked entry is still tracked with a last_step at least as
large. -/
def hosts_mono (s s' : AgentState) : Prop :=
  ∀ (n : String) (i : KnownHostInfo), List.lookup n s.hosts = some i →
    ∃ i', List.lookup n s'.hosts = some i' ∧ i.last_step ≤ i'.last_step

/-- Every host with a history entry also has a services-map entry (its name
is tracked).  ARTAgent establishes this at construction — services_map is
built for every network host and history starts with the entry host — and
every later history insertion concerns a network host already handled by
handle_network_change. -/
def hosts_keys_tracked (s : AgentState) : Prop :=
  ∀ n : String, (List.lookup n s.hosts).isSome = true → n ∈ s.tracked_hosts

/-- n successive calls of act (the per-episode loop), all with the same
random index. -/
def act_iter (env : RedEnv) (strategy : RedStrategyKind) (choice : Nat) :
    AgentState → Nat → Except String AgentState
  | s, 0 => .ok s
  | s, n + 1 => do
    let (s1, _, _) ← act env strategy s choice
    act_iter env strategy choice s1 n

/-! ## The blue discrete action space
Source: cyberwheel/agents/blue/action_space/discrete.py (ActionRangeChecker,
DiscreteActionSpace.select_action, DiscreteActionSpace.add_action). -/

/-- ActionRangeChecker: a catalog entry's reserved index range. -/
structure ActionRangeChecker where
  name : String
  type : String
  lower_bound : Int
  upper_bound : Int
deriving DecidableEq, Repr

/-- ActionRangeChecker.check_range. -/
def ActionRangeChecker.check_range (ac : ActionRangeChecker) (index : Int) :
    Bool :=
  decide (ac.lower_bound ≤ index) && decide (index < ac.upper_bound)

/-- DiscreteActionSpace state: the hosts and subnets of the network (by
name), the checkers, and the running action_space_size from which new lower
bounds are taken. -/
structure DiscreteActionSpace where
  hosts : List String := []
  subnets : List String := []
  action_checkers : List ActionRangeChecker := []
  action_space_size : Int := 0
deriving DecidableEq, Repr

/-- The concrete target resolved from an action index. -/
inductive ASTarget where
  | host_target (h : String)
  | subnet_target (s : String)
  | index_target (i : Int)
deriving DecidableEq, Repr

/-- The ASReturn fields select_action produces: the entry name and the
resolved target argument (absent for standalone actions). -/
structure ASReturn where
  name : String
  target : Option ASTarget := Option.none
deriving DecidableEq, Repr

/-- The input handed to select_action: an integer-convertible value or one
whose int() raises ValueError. -/
inductive ActInput where
  | int_like (n : Int)
  | malformed
deriving DecidableEq, Repr

/-- The checker loop of select_action.  Lean's Int emod agrees with Python's
% on a positive divisor; the call sites guarantee a non-empty host or subnet
list where that entry type appears (an empty list would raise
ZeroDivisionError in Python, surfaced here as the IndexError branch). -/
def select_action_loop (sp : DiscreteActionSpace) :
    List ActionRangeChecker → Int → Except String (Option ASReturn)
  | [], _ => .ok Option.none
  | ac :: rest, n =>
    if !(ac.check_range n) then select_action_loop sp rest n
    else if ac.type == "standalone" then
      .ok (some { name := ac.name })
    else if ac.type == "host" then
      let index := (n - ac.lower_bound) % (sp.hosts.length : Int)
      match sp.hosts.get? index.toNat with
      | some h => .ok (some { name := ac.name, target := some (.host_target h) })
      | Option.none => .error "IndexError: list index out of range"
    else if ac.type == "subnet" then
      let index := (n - ac.lower_bound) % (sp.subnets.length : Int)
      match sp.subnets.get? index.toNat with
      | some sub =>
        .ok (some { name := ac.name, target := some (.subnet_target sub) })
      | Option.none => .error "IndexError: list index out of range"
    else if ac.type == "range" then
      .ok (some { name := ac.name,
                  target := some (.index_target
                    ((n - ac.lower_bound) % (ac.upper_bound - ac.lower_bound))) })
    else .error ("TypeError: Unknown action type: " ++ ac.type)

/-- DiscreteActionSpace.select_action: int(action) raising ValueError is
re-raised as TypeError; an integer index runs the checker loop, and when no
checker's range contains it the function falls off the loop and returns
None. -/
def select_action (sp : DiscreteActionSpace) (a : ActInput) :
    Except String (Option ASReturn) :=
  match a with
  | .malformed => .error "TypeError: unsupported action for the ActionSpaceConverter"
  | .int_like n => select_action_loop sp sp.action_checkers n

/-- DiscreteActionSpace.add_action: reserve [size, size + width) for the
entry, where the width is 1, len(hosts), len(subnets) or the explicit
range. -/
def add_action (sp : DiscreteActionSpace) (name type : String) (range_ : Int) :
    Except String DiscreteActionSpace := do
  let lower := sp.action_space_size
  let size ←
    if type == "standalone" then pure (sp.action_space_size + 1)
    else if type == "host" then pure (sp.action_space_size + sp.hosts.length)
    else if type == "subnet" then pure (sp.action_space_size + sp.subnets.length)
    else if type == "range" then
      if range_ ≤ 0 then .error "ValueError: Value for range must be > 0"
      else pure (sp.action_space_size + range_)
    else .error "ValueError: Action type must be host, subnet, standalone, or range"
  let upper := size
  .ok { sp with action_space_size := size,
                action_checkers := sp.action_checkers ++
                  [{ name := name, type := type,
                     lower_bound := lower, upper_bound := upper }] }

/-! ## Concrete instances used to settle the claims -/

/-- A router with no firewall rules. -/
def bare_router : RouterObj := { name := "core_router" }

/-- A subnet with no firewall rules. -/
def bare_subnet : SubnetObj := { name := "user_subnet", router := bare_router }

/-- A destination host with no firewall rules. -/
def bare_host : HostObj := { name := "host1", subnet := bare_subnet }

/-- A source host on the same subnet. -/
def src_host : HostObj := { name := "host0", subnet := bare_subnet }

/-- An allow-all rule list placed on every object of the chain. -/
def open_rule : FirewallRule := { proto := "all" }

def open_router : RouterObj := { name := "core_router", firewall_rules := [open_rule] }

def open_subnet : SubnetObj :=
  { name := "user_subnet", router := open_router, firewall_rules := [open_rule] }

def open_host : HostObj :=
  { name := "host1", subnet := open_subnet, firewall_rules := [open_rule] }

/-- A one-host, one-subnet network for the red agent: every phase has a valid
technique against the host. -/
def one_host_env : RedEnv :=
  { network_hosts := ["h0"],
    subnet_of := fun _ => "s0",
    subnet_hosts := fun sn => if sn == "s0" then ["h0"] else [],
    host_type_of := fun _ => "printer_type",
    valid := fun _ _ => true }

/-- The agent state right after ARTAgent.__init__ with entry host h0: the
entry host is known with default info, its subnet is recorded unscanned, and
every network host is tracked. -/
def one_host_entry_state : AgentState :=
  { current_host := "h0",
    hosts := [("h0", {})],
    subnets := [("s0", false)],
    tracked_hosts := ["h0"] }

/-- The state after the first act (a successful PingSweep) from
one_host_entry_state. -/
def one_host_after_sweep : AgentState :=
  { current_host := "h0",
    hosts := [("h0", { ping_sweeped := true })],
    subnets := [("s0", false)],
    tracked_hosts := ["h0"] }

/-- An action space holding only one standalone entry reserving [0, 1). -/
def lone_standalone_space : DiscreteActionSpace :=
  { action_checkers := [{ name := "nothing", type := "standalone",
                          lower_bound := 0, upper_bound := 1 }],
    action_space_size := 1 }

/-- A space with two hosts and a host-targeted entry reserving [1, 3) after
a standalone entry at [0, 1). -/
def two_host_space : DiscreteActionSpace :=
  { hosts := ["h0", "h1"],
    action_checkers :=
      [{ name := "nothing", type := "standalone", lower_bound := 0, upper_bound := 1 },
       { name := "restore", type := "host", lower_bound := 1, upper_bound := 3 }],
    action_space_size := 3 }

/-- The number of addresses currently leased to connected hosts (every
connected host is leased exactly one address). -/
def leased_count (s : SubnetState) : Nat :=
  (s.connected_hosts.filter (fun h => h.ip_address.isSome)).length

/-- The network state for the decoy round trip: a pool of two addresses and
one connected host. -/
def base_net_state : NetworkState :=
  { host_nodes := [{ name := "user0", ip_address := some 10 }],
    subnet := { available_ips := [11, 12],
                connected_hosts := [{ name := "user0", ip_address := some 10 }] },
    decoys := [] }

/-- The decoy created from base_net_state. -/
def decoy0 : NetHost := { name := "decoy0", ip_address := some 11, decoy := true }

/-- base_net_state after create_decoy_host has added decoy0. -/
def decoy_net_state : NetworkState :=
  { host_nodes := [{ name := "user0", ip_address := some 10 }, decoy0],
    subnet := { available_ips := [12],
                connected_hosts := [{ name := "user0", ip_address := some 10 }, decoy0] },
    decoys := [decoy0] }

/-- A graph whose only edge is the pass-through edge from start to end. -/
def pass_through_graph : DetectorGraph :=
  { edges := [("start", "end", Option.none)] }

/-- A single concrete alert. -/
def alert0 : Alert := { src_host := some "h0", dst_hosts := ["h1"] }

/-- A second, different alert. -/
def alert1 : Alert := { src_host := some "h1", dst_hosts := ["h0"] }

/-- A detector configuration consisting of a lone start node: every rule the
claim lists holds of it, yet construction fails on the out-degree pass. -/
def lone_start_config : DetectorConfig :=
  { adjacency_list := [("start", [])], init_info := [] }

/-- A well-formed start → d1 → end configuration. -/
def detector_chain_config : DetectorConfig :=
  { adjacency_list := [("start", ["d1"]), ("d1", ["end"]), ("end", [])],
    init_info := ["d1"] }

/-- A history observation over two hosts (vector length 4, barrier 2). -/
def two_host_obs : HistoryObservation :=
  dynamic_cyberwheel_obs_init ["h0", "h1"] ["h0", "h1"]

/-- Two services that Service.__eq__ identifies (same port, protocol and
version) but whose __key tuples — the input of __hash__ — differ in name. -/
def http_service : Service := { name := "http", port := 80, version := some "2.4" }

def http_alt_service : Service :=
  { name := "http_alt", port := 80, version := some "2.4" }

/-! # Theorems -/

/-! ## C1: firewall evaluation -/

theorem with_rules_firewall_rules (d : NetworkObj) (l : List FirewallRule) :
    (d.with_rules l).firewall_rules = l := by
  cases d <;> rfl

theorem with_rules_name (d : NetworkObj) (l : List FirewallRule) :
    (d.with_rules l).name = d.name := by
  cases d <;> rfl

theorem does_dest_match_with_rules (d : NetworkObj) (l : List FirewallRule)
    (rule : FirewallRule) (type : String) :
    does_dest_match (d.with_rules l) rule type = does_dest_match d rule type := by
  cases d <;> rfl

/-- C1, counterexample.  The claim says is_traffic_allowed returns True
(default allow) whenever no firewall rule list is defined for the objects
being checked; but with empty rule lists on the destination host, its subnet
and its router, the code denies the traffic. -/
theorem c1_empty_rule_lists_denied :
    is_traffic_allowed src_host (.host bare_host) (.num 80) "tcp"
      = .ok false := by
  simp [is_traffic_allowed, check_rules, is_valid_port_number, py_lower,
    NetworkObj.firewall_rules, bare_host, src_host, bare_subnet, bare_router,
    Bind.bind, Except.bind, Pure.pure, Except.pure]

/-- C1, amended.  is_traffic_allowed conjunctively evaluates the
destination's (and, for a Host destination, its subnet's and router's)
firewall rules against the source, but with no specificity precedence: for
each object only the first rule of its list is consulted, and an object with
an empty rule list denies all traffic (default deny, not default allow). -/
theorem is_traffic_allowed_first_rule_conjunctive :
    (∀ (src : HostObj) (dest : NetworkObj) (port proto type : String),
        dest.firewall_rules = [] →
        check_rules src dest port proto type = .ok false)
  ∧ (∀ (src : HostObj) (dest : NetworkObj) (port proto type : String)
        (r : FirewallRule) (rest : List FirewallRule),
        dest.firewall_rules = r :: rest →
        check_rules src dest port proto type
          = check_rules src (dest.with_rules [r]) port proto type)
  ∧ (∀ (src : HostObj) (h : HostObj) (port : PortArg) (proto : String),
        py_lower proto = "icmp" ∨ is_valid_port_number port = .ok true →
        (is_traffic_allowed src (.host h) port proto = .ok true ↔
          (check_rules src (.router h.subnet.router) (portArgStr port) proto "host"
              = .ok true ∧
           check_rules src (.subnet h.subnet) (portArgStr port) proto "host"
              = .ok true ∧
           check_rules src (.host h) (portArgStr port) proto "host"
              = .ok true))) := by
  refine ⟨?_, ?_, ?_⟩
  · intro src dest port proto type hempty
    unfold check_rules
    rw [hempty]
  · intro src dest port proto type r rest hrules
    rcases dest with ⟨nm, sub, rules⟩ | ⟨nm, rt, rules⟩ | ⟨nm, rules⟩ <;>
      dsimp only [NetworkObj.firewall_rules] at hrules <;> subst hrules <;> rfl
  · intro src h port proto hv
    have hpre :
        is_traffic_allowed src (.host h) port proto
          = (do
              let a1 ← check_rules src (.router h.subnet.router)
                (portArgStr port) proto "host"
              if !a1 then return false
              let a2 ← check_rules src (.subnet h.subnet)
                (portArgStr port) proto "host"
              if !a2 then return false
              let a3 ← check_rules src (.host h)
                (portArgStr port) proto "host"
              if !a3 then return false
              return true) := by
      rcases hv with hicmp | hvalid
      · unfold is_traffic_allowed
        simp [hicmp]
      · unfold is_traffic_allowed
        rcases hb : (py_lower proto == "icmp") with _ | _
        · simp [hb, hvalid, Bind.bind, Except.bind]
          rfl
        · simp [hb]
    rw [hpre]
    cases h1 : check_rules src (.router h.subnet.router)
        (portArgStr port) proto "host" with
    | error e => simp [Bind.bind, Except.bind, h1]
    | ok b1 =>
      cases h2 : check_rules src (.subnet h.subnet)
          (portArgStr port) proto "host" with
      | error e =>
        cases b1 <;> simp [Bind.bind, Except.bind, h1, h2, Pure.pure, Except.pure]
      | ok b2 =>
        cases h3 : check_rules src (.host h)
            (portArgStr port) proto "host" with
        | error e =>
          cases b1 <;> cases b2 <;>
            simp [Bind.bind, Except.bind, h1, h2, h3, Pure.pure, Except.pure]
        | ok b3 =>
          cases b1 <;> cases b2 <;> cases b3 <;>
            simp [Bind.bind, Except.bind, h1, h2, h3, Pure.pure, Except.pure]

/-- C1, witness: with an allow-all rule on router, subnet and host the
amended theorem yields an allowed flow at a concrete input. -/
theorem is_traffic_allowed_first_rule_conjunctive_witness :
    is_traffic_allowed src_host (.host open_host) (.num 80) "tcp" = .ok true :=
  (is_traffic_allowed_first_rule_conjunctive.2.2 src_host open_host
      (.num 80) "tcp" (Or.inr rfl)).mpr ⟨rfl, rfl, rfl⟩

/-! ## C4 and C10: the decoy lifecycle -/

theorem any_name_eq_false (l : List NetHost) (nm : String)
    (h : ∀ g ∈ l, g.name ≠ nm) : (l.any (fun g => g.name == nm)) = false := by
  simp only [List.any_eq_false, beq_iff_eq]
  exact h

theorem assign_dhcp_lease_eq (s : SubnetState) (host : NetHost) (k : Nat)
    (a : Nat) (rest : List Nat) (hp : s.available_ips = a :: rest) :
    ∃ ip, ip ∈ s.available_ips ∧
      assign_dhcp_lease s host k
        = .ok ({ available_ips := s.available_ips.erase ip,
                 connected_hosts :=
                   s.connected_hosts ++ [{ host with ip_address := some ip }] },
               { host with ip_address := some ip }) := by
  rcases s with ⟨avail, conn⟩
  dsimp only at hp
  subst hp
  exact ⟨(a :: rest).get ⟨k % (a :: rest).length, Nat.mod_lt _ (Nat.succ_pos _)⟩,
    List.get_mem _ _ _, rfl⟩

theorem create_decoy_host_eq (st : NetworkState) (name : String) (k : Nat)
    (a : Nat) (rest : List Nat) (hp : st.subnet.available_ips = a :: rest)
    (hfresh_nodes : ∀ g ∈ st.host_nodes, g.name ≠ name) :
    ∃ ip, ip ∈ st.subnet.available_ips ∧
      create_decoy_host st name k = .ok
        ({ host_nodes := st.host_nodes ++ [⟨name, some ip, true⟩],
           subnet := { available_ips := st.subnet.available_ips.erase ip,
                       connected_hosts :=
                         st.subnet.connected_hosts ++ [⟨name, some ip, true⟩] },
           decoys := st.decoys ++ [⟨name, some ip, true⟩] },
         ⟨name, some ip, true⟩) := by
  obtain ⟨ip, hmem, heq⟩ :=
    assign_dhcp_lease_eq st.subnet { name := name, decoy := true } k a rest hp
  refine ⟨ip, hmem, ?_⟩
  simp only [create_decoy_host, add_host_to_subnet, heq, Bind.bind, Except.bind, graph_add_node,
    any_name_eq_false st.host_nodes name hfresh_nodes]
  rfl

/-- Evaluation of remove_decoy_host on a state with a non-empty registry and
a graph node of the argument's name: the node is removed, the address is
returned, the host is detached, and the registry cleanup raises ValueError
leaving the registry unchanged. -/
theorem remove_decoy_host_eq (nodes : List NetHost) (avail : List Nat)
    (conn decs : List NetHost) (host : NetHost) (ip : Nat)
    (hne : decs ≠ [])
    (hin : nodes.any (fun h => h.name == host.name) = true)
    (hip : host.ip_address = some ip) :
    remove_decoy_host ⟨nodes, ⟨avail, conn⟩, decs⟩ host =
      (⟨nodes.filter (fun h => h.name != host.name),
        ⟨avail ++ [ip], conn.filter (fun h => h.name != host.name)⟩,
        decs⟩,
       some "ValueError: list.remove(x): x not in list") := by
  cases decs with
  | nil => exact absurd rfl hne
  | cons d ds =>
    simp [remove_decoy_host, remove_host_from_subnet, hin, hip,
      py_list_remove_int, host_eq_py_int]

/-- C4: creating a decoy draws exactly one address from the subnet pool and
leases it to the new host, and the removal step of remove_decoy_host returns
exactly that address to the pool and detaches the host, so the number of
available addresses plus the number of addresses leased to connected hosts
is constant across the pair. -/
theorem create_remove_decoy_pool_invariant
    (st : NetworkState) (name : String) (k : Nat)
    (a : Nat) (rest : List Nat) (hpool : st.subnet.available_ips = a :: rest)
    (hfresh_conn : ∀ h ∈ st.subnet.connected_hosts, h.name ≠ name)
    (hfresh_nodes : ∀ h ∈ st.host_nodes, h.name ≠ name) :
    ∃ st1 host, create_decoy_host st name k = .ok (st1, host) ∧
      (∃ ip, host.ip_address = some ip ∧ ip ∈ st.subnet.available_ips ∧
        st1.subnet.available_ips = st.subnet.available_ips.erase ip) ∧
      st1.subnet.available_ips.length + 1 = st.subnet.available_ips.length ∧
      st1.subnet.connected_hosts = st.subnet.connected_hosts ++ [host] ∧
      st1.subnet.available_ips.length + leased_count st1.subnet
        = st.subnet.available_ips.length + leased_count st.subnet ∧
      ((remove_decoy_host st1 host).1.subnet.available_ips.Perm
          st.subnet.available_ips ∧
       (remove_decoy_host st1 host).1.subnet.connected_hosts
          = st.subnet.connected_hosts ∧
       (remove_decoy_host st1 host).1.subnet.available_ips.length
          + leased_count (remove_decoy_host st1 host).1.subnet
          = st.subnet.available_ips.length + leased_count st.subnet) := by
  obtain ⟨ip, hmem, heq⟩ := create_decoy_host_eq st name k a rest hpool hfresh_nodes
  have hlen : (st.subnet.available_ips.erase ip).length + 1
      = st.subnet.available_ips.length := by
    rw [List.length_erase_of_mem hmem, hpool]
    simp
  have hremove :
      remove_decoy_host
        ⟨st.host_nodes ++ [(⟨name, some ip, true⟩ : NetHost)],
         ⟨st.subnet.available_ips.erase ip,
          st.subnet.connected_hosts ++ [(⟨name, some ip, true⟩ : NetHost)]⟩,
         st.decoys ++ [(⟨name, some ip, true⟩ : NetHost)]⟩
        (⟨name, some ip, true⟩ : NetHost) =
      ((⟨(st.host_nodes ++ [(⟨name, some ip, true⟩ : NetHost)]).filter
          (fun h => h.name != name),
        ⟨st.subnet.available_ips.erase ip ++ [ip],
         (st.subnet.connected_hosts ++ [(⟨name, some ip, true⟩ : NetHost)]).filter
          (fun h => h.name != name)⟩,
        st.decoys ++ [(⟨name, some ip, true⟩ : NetHost)]⟩ : NetworkState),
       some "ValueError: list.remove(x): x not in list") := by
    exact remove_decoy_host_eq (st.host_nodes ++ [(⟨name, some ip, true⟩ : NetHost)])
      (st.subnet.available_ips.erase ip)
      (st.subnet.connected_hosts ++ [(⟨name, some ip, true⟩ : NetHost)])
      (st.decoys ++ [(⟨name, some ip, true⟩ : NetHost)])
      (⟨name, some ip, true⟩ : NetHost) ip
      (by simp) (by simp) rfl
  have hconn : (st.subnet.connected_hosts ++ [(⟨name, some ip, true⟩ : NetHost)]).filter
      (fun h => h.name != name) = st.subnet.connected_hosts := by
    rw [List.filter_append]
    have h1 : st.subnet.connected_hosts.filter (fun h => h.name != name)
        = st.subnet.connected_hosts :=
      List.filter_eq_self.mpr (fun h hm => by
        simp only [bne_iff_ne, ne_eq, decide_eq_true_eq]
        exact hfresh_conn h hm)
    have h2 : ([(⟨name, some ip, true⟩ : NetHost)]).filter
        (fun h => h.name != name) = [] := by simp
    rw [h1, h2, List.append_nil]
  have hperm : ((st.subnet.available_ips.erase ip) ++ [ip]).Perm
      st.subnet.available_ips := by
    refine (List.perm_append_singleton ip _).trans ?_
    exact (List.perm_cons_erase hmem).symm
  refine ⟨_, ⟨name, some ip, true⟩, heq, ⟨ip, rfl, hmem, rfl⟩, hlen, rfl,
    ?_, ?_, ?_, ?_⟩
  · simp only [leased_count, List.filter_append]
    simp only [List.length_append]
    simp
    omega
  · rw [hremove]
    exact hperm
  · rw [hremove]
    exact hconn
  · rw [hremove]
    simp only [leased_count, hconn]
    have := hperm.length_eq
    omega

/-- C4, witness: the round trip on the concrete two-address state. -/
theorem create_remove_decoy_pool_invariant_witness :
    ∃ st1 host, create_decoy_host base_net_state "decoy0" 0 = .ok (st1, host) ∧
      (remove_decoy_host st1 host).1.subnet.available_ips.Perm
        base_net_state.subnet.available_ips ∧
      (remove_decoy_host st1 host).1.subnet.connected_hosts
        = base_net_state.subnet.connected_hosts := by
  obtain ⟨st1, host, hok, _, _, _, _, hperm, hconn, _⟩ :=
    create_remove_decoy_pool_invariant base_net_state "decoy0" 0 11 [12] rfl
      (by decide) (by decide)
  exact ⟨st1, host, hok, hperm, hconn⟩

/-- C10: for a host with a graph node and an assigned address that is present
in a non-empty decoy registry, remove_decoy_host removes the graph node,
returns the address to the pool and detaches the host from the subnet, and
then raises ValueError from the registry cleanup (self.decoys.remove(i)
passes the integer loop index), leaving the registry unchanged — the
operation is not atomic and never completes successfully. -/
theorem remove_decoy_host_partial_then_raises
    (st : NetworkState) (host : NetHost) (ip : Nat)
    (hip : host.ip_address = some ip)
    (hreg : ∃ d ∈ st.decoys, d.name = host.name)
    (hnode : ∃ g ∈ st.host_nodes, g.name = host.name) :
    (remove_decoy_host st host).2
        = some "ValueError: list.remove(x): x not in list" ∧
    (remove_decoy_host st host).1.decoys = st.decoys ∧
    (∀ g ∈ (remove_decoy_host st host).1.host_nodes, g.name ≠ host.name) ∧
    (remove_decoy_host st host).1.subnet.available_ips
        = st.subnet.available_ips ++ [ip] ∧
    (remove_decoy_host st host).1.subnet.connected_hosts
        = st.subnet.connected_hosts.filter (fun h => h.name != host.name) := by
  obtain ⟨nodes, ⟨avail, conn⟩, decs⟩ := st
  have hne : decs ≠ [] := by
    rcases hreg with ⟨d, hd, _⟩
    intro hnil
    rw [hnil] at hd
    exact absurd hd (List.not_mem_nil d)
  have hin : nodes.any (fun h => h.name == host.name) = true := by
    rcases hnode with ⟨g, hg, hgname⟩
    exact List.any_eq_true.mpr ⟨g, hg, by simpa using hgname⟩
  rw [remove_decoy_host_eq nodes avail conn decs host ip hne hin hip]
  refine ⟨rfl, rfl, ?_, rfl, rfl⟩
  intro g hg
  have := List.of_mem_filter hg
  simpa [bne_iff_ne] using this

/-- C10, witness: the concrete post-create state. -/
theorem remove_decoy_host_partial_then_raises_witness :
    (remove_decoy_host decoy_net_state decoy0).2
        = some "ValueError: list.remove(x): x not in list" ∧
    (remove_decoy_host decoy_net_state decoy0).1.decoys
        = decoy_net_state.decoys ∧
    (remove_decoy_host decoy_net_state decoy0).1.subnet.available_ips
        = decoy_net_state.subnet.available_ips ++ [11] := by
  obtain ⟨h1, h2, _, h4, _⟩ :=
    remove_decoy_host_partial_then_raises decoy_net_state decoy0 11 rfl
      ⟨decoy0, by decide, rfl⟩ ⟨decoy0, by decide, rfl⟩
  exact ⟨h1, h2, h4⟩

/-! ## C9: Service equality versus Service hashing -/

/-- C9: Service.__eq__ compares only (port, protocol, version) while the
__key tuple fed to __hash__ also contains name, description and decoy, so
the two concrete services compare equal yet hash from different keys; the
set union of Host._apply_host_type therefore retains both even though they
compare equal. -/
theorem service_eq_key_mismatch_retains_duplicates :
    service_eq http_service http_alt_service = true ∧
    http_service.key ≠ http_alt_service.key ∧
    apply_host_type_services [http_service] [http_alt_service]
      = [http_service, http_alt_service] ∧
    http_service ∈ apply_host_type_services [http_service] [http_alt_service] ∧
    http_alt_service ∈ apply_host_type_services [http_service] [http_alt_service] :=
  ⟨rfl, by decide, rfl, by decide, by decide⟩

/-! ## C5: the pass-through detector pipeline -/

theorem append_unique_cons (buf : List Alert) (x : Alert) (xs : List Alert) :
    append_unique buf (x :: xs)
      = append_unique (if buf.contains x then buf else buf ++ [x]) xs := rfl

theorem mem_append_unique (l : List Alert) :
    ∀ (buf : List Alert) (a : Alert),
      a ∈ append_unique buf l ↔ a ∈ buf ∨ a ∈ l := by
  induction l with
  | nil => intro buf a; simp [append_unique]
  | cons x xs ih =>
    intro buf a
    rw [append_unique_cons, ih]
    by_cases hx : x ∈ buf
    · rw [if_pos (by simpa using hx)]
      constructor
      · rintro (h | h)
        · exact Or.inl h
        · exact Or.inr (List.mem_cons_of_mem _ h)
      · rintro (h | h)
        · exact Or.inl h
        · rcases List.mem_cons.mp h with rfl | h2
          · exact Or.inl hx
          · exact Or.inr h2
    · rw [if_neg (by simpa using hx)]
      simp only [List.mem_append, List.mem_singleton, List.mem_cons]
      tauto

theorem nodup_append_unique (l : List Alert) :
    ∀ buf : List Alert, buf.Nodup → (append_unique buf l).Nodup := by
  induction l with
  | nil => intro buf h; exact h
  | cons x xs ih =>
    intro buf h
    rw [append_unique_cons]
    by_cases hx : x ∈ buf
    · rw [if_pos (by simpa using hx)]
      exact ih buf h
    · rw [if_neg (by simpa using hx)]
      refine ih (buf ++ [x]) ?_
      simp [List.nodup_append, h, hx]

theorem append_unique_eq_append (l : List Alert) :
    ∀ buf : List Alert, (∀ a ∈ l, a ∉ buf) → l.Nodup →
      append_unique buf l = buf ++ l := by
  induction l with
  | nil => intro buf _ _; simp [append_unique]
  | cons x xs ih =>
    intro buf hd hnd
    have hx : x ∉ buf := hd x (List.mem_cons_self x xs)
    rw [append_unique_cons, if_neg (by simpa using hx)]
    rw [ih (buf ++ [x]) ?_ (List.nodup_cons.mp hnd).2]
    · simp
    · intro a ha hmem
      rcases List.mem_append.mp hmem with h | h
      · exact hd a (List.mem_cons_of_mem _ ha) h
      · have hax : a = x := by simpa using h
        subst hax
        exact (List.nodup_cons.mp hnd).1 ha

theorem handler_obs_pass_graph_eq (alerts : List Alert) :
    (handler_obs pass_through_graph alerts).2 = append_unique [] alerts := rfl

/-- C5, counterexample.  The claim says obs is the identity on every input
alert list for a pass-through-only graph, but the per-edge buffer insertion
drops a duplicate alert. -/
theorem handler_obs_drops_duplicate_alert :
    (handler_obs pass_through_graph [alert0, alert0]).2 = [alert0] ∧
    [alert0] ≠ [alert0, alert0] :=
  ⟨rfl, by decide⟩

/-- C5, amended.  For the pass-through-only graph (its single edge is
start → end with no detector) and cleared buffers, obs returns the input
alerts with duplicates removed, first occurrence kept: it is the identity
exactly on duplicate-free inputs, and in general the output is
duplicate-free with the same members as the input. -/
theorem handler_obs_pass_through_dedup :
    (∀ alerts : List Alert, alerts.Nodup →
        (handler_obs pass_through_graph alerts).2 = alerts)
  ∧ (∀ alerts : List Alert,
        (handler_obs pass_through_graph alerts).2.Nodup
      ∧ ∀ a : Alert,
          a ∈ (handler_obs pass_through_graph alerts).2 ↔ a ∈ alerts) := by
  constructor
  · intro alerts h
    rw [handler_obs_pass_graph_eq, append_unique_eq_append alerts [] (by simp) h]
    simp
  · intro alerts
    rw [handler_obs_pass_graph_eq]
    refine ⟨nodup_append_unique alerts [] (by simp), fun a => ?_⟩
    rw [mem_append_unique]
    simp

/-- C5, witness: a duplicate-free two-alert input passes through unchanged. -/
theorem handler_obs_pass_through_dedup_witness :
    (handler_obs pass_through_graph [alert0, alert1]).2 = [alert0, alert1] :=
  handler_obs_pass_through_dedup.1 [alert0, alert1] (by decide)

/-! ## C6: detector-graph construction -/

theorem forM_except_ok_iff {α : Type} (l : List α) (f : α → Except String Unit) :
    (l.forM f = .ok ()) ↔ ∀ x ∈ l, f x = .ok () := by
  induction l with
  | nil => simp [List.forM, Pure.pure, Except.pure]
  | cons x xs ih =>
    show (f x >>= fun _ => xs.forM f) = .ok () ↔ _
    cases hfx : f x with
    | error e => simp [Bind.bind, Except.bind, hfx]
    | ok u =>
      cases u
      simp [Bind.bind, Except.bind, hfx, ih]

theorem mem_foldl_insert_unique {α : Type} [BEq α] [LawfulBEq α] (l : List α) :
    ∀ (acc : List α) (x : α),
      x ∈ l.foldl (fun a n => if a.contains n then a else a ++ [n]) acc
        ↔ x ∈ acc ∨ x ∈ l := by
  induction l with
  | nil => intro acc x; simp
  | cons y ys ih =>
    intro acc x
    show x ∈ ys.foldl _ (if acc.contains y then acc else acc ++ [y]) ↔ _
    rw [ih]
    by_cases hy : y ∈ acc
    · rw [if_pos (by simpa using hy)]
      constructor
      · rintro (h | h)
        · exact Or.inl h
        · exact Or.inr (List.mem_cons_of_mem _ h)
      · rintro (h | h)
        · exact Or.inl h
        · rcases List.mem_cons.mp h with rfl | h2
          · exact Or.inl hy
          · exact Or.inr h2
    · rw [if_neg (by simpa using hy)]
      simp only [List.mem_append, List.mem_singleton, List.mem_cons]
      tauto

theorem mem_config_nodes_iff (c : DetectorConfig) (x : String) :
    x ∈ config_nodes c ↔ ∃ e ∈ c.adjacency_list, x = e.1 ∨ x ∈ e.2 := by
  suffices h : ∀ (entries : List (String × List String)) (acc : List String),
      x ∈ entries.foldl
        (fun acc e =>
          (e.1 :: e.2).foldl (fun a n => if a.contains n then a else a ++ [n]) acc)
        acc
      ↔ x ∈ acc ∨ ∃ e ∈ entries, x = e.1 ∨ x ∈ e.2 by
    have := h c.adjacency_list []
    simpa [config_nodes] using this
  intro entries
  induction entries with
  | nil => intro acc; simp
  | cons e es ih =>
    intro acc
    show x ∈ es.foldl _ ((e.1 :: e.2).foldl _ acc) ↔ _
    rw [ih, mem_foldl_insert_unique]
    simp only [List.mem_cons]
    constructor
    · rintro ((h | h) | ⟨e', he', hx⟩)
      · exact Or.inl h
      · exact Or.inr ⟨e, Or.inl rfl, h⟩
      · exact Or.inr ⟨e', Or.inr he', hx⟩
    · rintro (h | ⟨e', (rfl | hes), hx⟩)
      · exact Or.inl (Or.inl h)
      · exact Or.inl (Or.inr hx)
      · exact Or.inr ⟨e', hes, hx⟩

theorem mem_config_edges_iff (c : DetectorConfig) (ed : String × String) :
    ed ∈ config_edges c
      ↔ ∃ e ∈ c.adjacency_list, ed.1 = e.1 ∧ ed.2 ∈ e.2 := by
  suffices h : ∀ (entries : List (String × List String))
      (acc : List (String × String)),
      ed ∈ entries.foldl
        (fun acc e =>
          (e.2.map (fun child => (e.1, child))).foldl
            (fun a n => if a.contains n then a else a ++ [n]) acc)
        acc
      ↔ ed ∈ acc ∨ ∃ e ∈ entries, ed.1 = e.1 ∧ ed.2 ∈ e.2 by
    have := h c.adjacency_list []
    simpa [config_edges] using this
  intro entries
  induction entries with
  | nil => intro acc; simp
  | cons e es ih =>
    intro acc
    show ed ∈ es.foldl _ ((e.2.map _).foldl _ acc) ↔ _
    rw [ih, mem_foldl_insert_unique]
    have hmap : ed ∈ e.2.map (fun child => (e.1, child))
        ↔ ed.1 = e.1 ∧ ed.2 ∈ e.2 := by
      rcases ed with ⟨u, v⟩
      simp only [List.mem_map, Prod.mk.injEq]
      constructor
      · rintro ⟨child, hc, h1, h2⟩
        exact ⟨h1.symm, h2 ▸ hc⟩
      · rintro ⟨h1, h2⟩
        exact ⟨v, h2, h1.symm, rfl⟩
    rw [hmap]
    simp only [List.mem_cons]
    constructor
    · rintro ((h | h) | ⟨e', he', hx⟩)
      · exact Or.inl h
      · exact Or.inr ⟨e, Or.inl rfl, h⟩
      · exact Or.inr ⟨e', Or.inr he', hx⟩
    · rintro (h | ⟨e', (rfl | hes), hx⟩)
      · exact Or.inl (Or.inl h)
      · exact Or.inl (Or.inr hx)
      · exact Or.inr ⟨e', hes, hx⟩

theorem out_degree_pos_iff (c : DetectorConfig) (n : String) :
    1 ≤ out_degree c n ↔ ∃ e ∈ config_edges c, e.1 = n := by
  unfold out_degree
  constructor
  · intro h
    obtain ⟨e, he, hp⟩ := List.countP_pos_iff.mp h
    exact ⟨e, he, by simpa using hp⟩
  · rintro ⟨e, he, h1⟩
    exact List.countP_pos_iff.mpr ⟨e, he, by simpa using h1⟩

theorem build_node_check_ok_iff (c : DetectorConfig) (e : String × List String) :
    build_node_check c e = .ok ()
      ↔ (e.1 ≠ "start" → e.1 ≠ "end" → e.1 ∈ c.init_info) := by
  unfold build_node_check
  by_cases hc : (e.1 != "start" && e.1 != "end" && !(c.init_info.contains e.1)) = true
  · rw [if_pos hc]
    simp only [Bool.and_eq_true, bne_iff_ne, ne_eq, Bool.not_eq_true'] at hc
    obtain ⟨⟨h1, h2⟩, h3⟩ := hc
    simp at h3
    constructor
    · intro habs
      exact absurd habs (by simp)
    · intro h
      exact absurd (h h1 h2) h3
  · rw [if_neg hc]
    simp only [Bool.and_eq_true, bne_iff_ne, ne_eq, Bool.not_eq_true',
      not_and] at hc
    constructor
    · intro _ h1 h2
      have := hc ⟨h1, h2⟩
      simpa using this
    · intro _
      rfl

theorem from_config_build_ok_iff (c : DetectorConfig) :
    from_config_build c = .ok ()
      ↔ ∀ e ∈ c.adjacency_list,
          e.1 ≠ "start" → e.1 ≠ "end" → e.1 ∈ c.init_info := by
  unfold from_config_build
  rw [forM_except_ok_iff]
  exact ⟨fun h e he => (build_node_check_ok_iff c e).mp (h e he),
    fun h e he => (build_node_check_ok_iff c e).mpr (h e he)⟩

theorem in_degree_check_ok_iff (c : DetectorConfig) (n : String) :
    in_degree_check c n = .ok ()
      ↔ ((n = "start" → in_degree c n = 0) ∧
         (n ≠ "start" → 1 ≤ in_degree c n)) := by
  unfold in_degree_check
  by_cases h1 : n = "start"
  · subst h1
    cases hdeg : in_degree c "start" with
    | zero => simp [hdeg]
    | succ k => simp [hdeg]
  · cases hdeg : in_degree c n with
    | zero => simp [hdeg, h1]
    | succ k => simp [hdeg, h1]

theorem out_degree_check_ok_iff (c : DetectorConfig) (n : String) :
    out_degree_check c n = .ok ()
      ↔ ((n = "end" → out_degree c n = 0) ∧
         (n ≠ "end" → 1 ≤ out_degree c n)) := by
  unfold out_degree_check
  by_cases h1 : n = "end"
  · subst h1
    cases hdeg : out_degree c "end" with
    | zero => simp [hdeg]
    | succ k => simp [hdeg]
  · cases hdeg : out_degree c n with
    | zero => simp [hdeg, h1]
    | succ k => simp [hdeg, h1]

theorem validate_graph_structure_ok_iff (c : DetectorConfig) :
    validate_graph_structure c = .ok ()
      ↔ ∀ n ∈ config_nodes c,
          ((n = "start" → in_degree c n = 0) ∧
           (n ≠ "start" → 1 ≤ in_degree c n) ∧
           (n = "end" → out_degree c n = 0) ∧
           (n ≠ "end" → 1 ≤ out_degree c n)) := by
  have hsplit :
      validate_graph_structure c
        = ((config_nodes c).forM (in_degree_check c) >>= fun _ =>
            (config_nodes c).forM (out_degree_check c)) := rfl
  rw [hsplit]
  cases hm1 : (config_nodes c).forM (in_degree_check c) with
  | error e =>
    simp only [Bind.bind, Except.bind]
    constructor
    · intro habs
      exact absurd habs (by simp)
    · intro h
      have : (config_nodes c).forM (in_degree_check c) = .ok () :=
        (forM_except_ok_iff _ _).mpr
          (fun n hn => (in_degree_check_ok_iff c n).mpr ⟨(h n hn).1, (h n hn).2.1⟩)
      rw [hm1] at this
      exact absurd this (by simp)
  | ok u =>
    cases u
    simp only [Bind.bind, Except.bind]
    rw [forM_except_ok_iff]
    have hin : ∀ n ∈ config_nodes c,
        ((n = "start" → in_degree c n = 0) ∧ (n ≠ "start" → 1 ≤ in_degree c n)) :=
      fun n hn => (in_degree_check_ok_iff c n).mp
        ((forM_except_ok_iff _ _).mp hm1 n hn)
    constructor
    · intro h n hn
      obtain ⟨o1, o2⟩ := (out_degree_check_ok_iff c n).mp (h n hn)
      exact ⟨(hin n hn).1, (hin n hn).2, o1, o2⟩
    · intro h n hn
      exact (out_degree_check_ok_iff c n).mpr ⟨(h n hn).2.2.1, (h n hn).2.2.2⟩

/-- C6, amended.  Construction fails iff the graph violates the rules the
code enforces: 'start' must have in-degree 0, every non-start node
(including 'end') in-degree ≥ 1, 'end' out-degree 0, every non-end node
(including 'start') out-degree ≥ 1, and every non-start/end node must
reference a defined detector.  Any violation is raised during
initialization. -/
theorem detector_construction_ok_iff (c : DetectorConfig) :
    except_ok (detector_from_config c) = true ↔ code_structural_rules c := by
  have hsplit : except_ok (detector_from_config c) = true
      ↔ (from_config_build c = .ok () ∧ validate_graph_structure c = .ok ()) := by
    unfold detector_from_config
    cases hb : from_config_build c with
    | error e => simp [except_ok, Bind.bind, Except.bind, hb]
    | ok u =>
      cases u
      cases hv : validate_graph_structure c with
      | error e => simp [except_ok, Bind.bind, Except.bind, hb, hv]
      | ok u2 =>
        cases u2
        simp [except_ok, Bind.bind, Except.bind, hb, hv]
  rw [hsplit, from_config_build_ok_iff, validate_graph_structure_ok_iff]
  unfold code_structural_rules
  constructor
  · rintro ⟨hbuild, hval⟩ n hn
    obtain ⟨g1, g2, g3, g4⟩ := hval n hn
    refine ⟨g1, g2, g3, g4, ?_⟩
    intro hns hne
    obtain ⟨ed, hed, hed1⟩ := (out_degree_pos_iff c n).mp (g4 hne)
    obtain ⟨ent, hent, he1, _⟩ := (mem_config_edges_iff c ed).mp hed
    have hhead : ent.1 = n := he1 ▸ hed1
    have := hbuild ent hent (by rw [hhead]; exact hns) (by rw [hhead]; exact hne)
    rwa [hhead] at this
  · intro hrules
    constructor
    · intro ent hent h1 h2
      have hn : ent.1 ∈ config_nodes c :=
        (mem_config_nodes_iff c ent.1).mpr ⟨ent, hent, Or.inl rfl⟩
      exact (hrules ent.1 hn).2.2.2.2 h1 h2
    · intro n hn
      obtain ⟨g1, g2, g3, g4, _⟩ := hrules n hn
      exact ⟨g1, g2, g3, g4⟩

/-- C6, counterexample.  A configuration consisting of a lone start node
satisfies every rule the claim lists ('start' in-degree 0; there is no 'end'
node and there are no other nodes), yet DetectorHandler construction fails
(the code also requires out-degree ≥ 1 of every non-end node), so the
claimed equivalence is false. -/
theorem lone_start_config_fails_despite_claim_rules :
    claim_structural_rules lone_start_config ∧
    except_ok (detector_from_config lone_start_config) = false :=
  ⟨by decide, rfl⟩

/-- C6, witness: a well-formed start → d1 → end chain constructs
successfully. -/
theorem detector_construction_ok_iff_witness :
    except_ok (detector_from_config detector_chain_config) = true :=
  (detector_construction_ok_iff detector_chain_config).mpr (by decide)

/-! ## C3: select_action over the discrete action space -/

theorem select_action_loop_skip (sp : DiscreteActionSpace) :
    ∀ (pre rest : List ActionRangeChecker) (n : Int),
      (∀ b ∈ pre, b.check_range n = false) →
      select_action_loop sp (pre ++ rest) n = select_action_loop sp rest n := by
  intro pre
  induction pre with
  | nil => intro rest n _; rfl
  | cons b pre' ih =>
    intro rest n h
    have hb := h b (List.mem_cons_self _ _)
    show select_action_loop sp (b :: (pre' ++ rest)) n = _
    simp only [select_action_loop, hb, Bool.not_false, if_true]
    exact ih rest n (fun x hx => h x (List.mem_cons_of_mem _ hx))

/-- C3, counterexample.  The claim says select_action raises an error for
every integer index outside all reserved ranges; on a space whose single
entry reserves [0, 1), index 5 instead returns successfully with no action
(the checker loop falls through and the function returns Python None). -/
theorem select_action_out_of_range_returns_none :
    select_action lone_standalone_space (.int_like 5) = .ok Option.none ∧
    except_ok (select_action lone_standalone_space (.int_like 5)) = true :=
  ⟨rfl, rfl⟩

/-- C3, amended.  select_action raises TypeError for malformed
(non-integer-convertible) input, resolves the owning catalog entry — the
first checker whose range holds the index — and the concrete target by the
integer offset within that entry's reserved range, but for an integer index
outside all ranges it returns None without raising an error. -/
theorem select_action_resolution :
    (∀ sp : DiscreteActionSpace,
        select_action sp .malformed
          = .error "TypeError: unsupported action for the ActionSpaceConverter")
  ∧ (∀ (sp : DiscreteActionSpace) (n : Int),
        (∀ ac ∈ sp.action_checkers, ac.check_range n = false) →
        select_action sp (.int_like n) = .ok Option.none)
  ∧ (∀ (sp : DiscreteActionSpace) (pre : List ActionRangeChecker)
        (ac : ActionRangeChecker) (post : List ActionRangeChecker) (n : Int),
        sp.action_checkers = pre ++ ac :: post →
        (∀ b ∈ pre, b.check_range n = false) →
        ac.check_range n = true →
        ((ac.type = "standalone" →
            select_action sp (.int_like n) = .ok (some { name := ac.name })) ∧
         (ac.type = "host" → ∀ h : String,
            sp.hosts.get?
                ((n - ac.lower_bound) % (sp.hosts.length : Int)).toNat = some h →
            select_action sp (.int_like n)
              = .ok (some { name := ac.name, target := some (.host_target h) })) ∧
         (ac.type = "subnet" → ∀ sub : String,
            sp.subnets.get?
                ((n - ac.lower_bound) % (sp.subnets.length : Int)).toNat = some sub →
            select_action sp (.int_like n)
              = .ok (some { name := ac.name, target := some (.subnet_target sub) })) ∧
         (ac.type = "range" →
            select_action sp (.int_like n)
              = .ok (some { name := ac.name,
                            target := some (.index_target
                              ((n - ac.lower_bound) % (ac.upper_bound - ac.lower_bound))) })))) := by
  refine ⟨fun sp => rfl, ?_, ?_⟩
  · intro sp n h
    show select_action_loop sp sp.action_checkers n = .ok Option.none
    have := select_action_loop_skip sp sp.action_checkers [] n h
    rw [List.append_nil] at this
    rw [this]
    rfl
  · intro sp pre ac post n hdecomp hpre hac
    have hskip : select_action sp (.int_like n)
        = select_action_loop sp (ac :: post) n := by
      show select_action_loop sp sp.action_checkers n = _
      rw [hdecomp]
      exact select_action_loop_skip sp pre (ac :: post) n hpre
    refine ⟨?_, ?_, ?_, ?_⟩
    · intro htype
      rw [hskip]
      simp [select_action_loop, hac, htype]
    · intro htype h hget
      rw [List.get?_eq_getElem?] at hget
      rw [hskip]
      simp [select_action_loop, hac, htype, hget]
    · intro htype sub hget
      rw [List.get?_eq_getElem?] at hget
      rw [hskip]
      simp [select_action_loop, hac, htype, hget]
    · intro htype
      rw [hskip]
      simp [select_action_loop, hac, htype]

/-- C3, witness: on a concrete two-host space, index 2 resolves the
host-targeted entry with offset 1, naming host h1. -/
theorem select_action_resolution_witness :
    select_action two_host_space (.int_like 2)
      = .ok (some { name := "restore", target := some (.host_target "h1") }) :=
  (select_action_resolution.2.2 two_host_space
      [{ name := "nothing", type := "standalone", lower_bound := 0, upper_bound := 1 }]
      { name := "restore", type := "host", lower_bound := 1, upper_bound := 3 }
      [] 2 rfl (by decide) (by decide)).2.1 rfl "h1" rfl

/-! ## C8: the history observation vector -/

theorem obs_fold_val (mapping : List (String × Nat)) (barrier : Nat)
    (alerts : List Alert) :
    ∀ (v : ObsVec) (j : Nat),
      ((alerts.foldl (fun v alert =>
          match alert.src_host with
          | some nm =>
            match List.lookup nm mapping with
            | some index => obs_set (obs_set v index 1) (index + barrier) 1
            | Option.none => v
          | Option.none => v) v).val j)
        = if alerts.any (fun alert =>
              match alert.src_host with
              | some nm =>
                match List.lookup nm mapping with
                | some index => j == index || j == index + barrier
                | Option.none => false
              | Option.none => false)
          then 1 else v.val j := by
  induction alerts with
  | nil => intro v j; simp
  | cons a as ih =>
    intro v j
    rw [List.foldl_cons, List.any_cons]
    cases hsrc : a.src_host with
    | none => simp [hsrc, ih]
    | some nm =>
      cases hlk : List.lookup nm mapping with
      | none => simp [hsrc, hlk, ih]
      | some index =>
        rw [ih]
        by_cases hj : (j == index || j == index + barrier) = true
        · have hinner : (obs_set (obs_set v index 1) (index + barrier) 1).val j
              = 1 := by
            dsimp only [obs_set]
            rcases (Bool.or_eq_true _ _).mp hj with h1 | h2
            · have h1' : j = index := by simpa using h1
              by_cases hb : j = index + barrier
              · simp [hb]
              · simp [hb, h1']
            · have h2' : j = index + barrier := by simpa using h2
              simp [h2']
          by_cases hany : (as.any (fun alert =>
              match alert.src_host with
              | some nm =>
                match List.lookup nm mapping with
                | some index => j == index || j == index + barrier
                | Option.none => false
              | Option.none => false)) = true
          · simp [hsrc, hlk, hj, hany]
          · simp [hsrc, hlk, hj, hany, hinner]
        · have hj' := hj
          simp only [Bool.or_eq_true, beq_iff_eq, not_or] at hj'
          have hinner : (obs_set (obs_set v index 1) (index + barrier) 1).val j
              = v.val j := by
            dsimp only [obs_set]
            simp [hj'.1, hj'.2]
          simp [hsrc, hlk, hj, hinner]

theorem obs_fold_len (mapping : List (String × Nat)) (barrier : Nat)
    (alerts : List Alert) :
    ∀ v : ObsVec,
      (alerts.foldl (fun v alert =>
          match alert.src_host with
          | some nm =>
            match List.lookup nm mapping with
            | some index => obs_set (obs_set v index 1) (index + barrier) 1
            | Option.none => v
          | Option.none => v) v).len = v.len := by
  induction alerts with
  | nil => intro v; rfl
  | cons a as ih =>
    intro v
    rw [List.foldl_cons]
    cases hsrc : a.src_host with
    | none =>
      simp only [hsrc]
      rw [ih]
    | some nm =>
      cases hlk : List.lookup nm mapping with
      | none =>
        simp only [hsrc, hlk]
        rw [ih]
      | some index =>
        simp only [hsrc, hlk]
        rw [ih]
        rfl

theorem create_obs_vector_val (h : HistoryObservation) (alerts : List Alert)
    (j : Nat) :
    (create_obs_vector h alerts).obs_vec.val j
      = if alerts.any (fun alert =>
            match alert.src_host with
            | some nm =>
              match List.lookup nm h.mapping with
              | some index => j == index || j == index + h.obs_vec.len / 2
              | Option.none => false
            | Option.none => false)
        then 1
        else if j < h.obs_vec.len / 2 then 0 else h.obs_vec.val j :=
  obs_fold_val h.mapping (h.obs_vec.len / 2) alerts
    { h.obs_vec with val := fun j => if j < h.obs_vec.len / 2 then 0 else h.obs_vec.val j } j

theorem create_obs_vector_len (h : HistoryObservation) (alerts : List Alert) :
    (create_obs_vector h alerts).obs_vec.len = h.obs_vec.len :=
  obs_fold_len h.mapping (h.obs_vec.len / 2) alerts
    { h.obs_vec with val := fun j => if j < h.obs_vec.len / 2 then 0 else h.obs_vec.val j }

/-- C8: the detector-driven observation is a vector of length
2 × host_count; each create_obs_vector call zeroes the first half and flags
exactly the hosts whose name is the source of a current alert, while a
second-half history bit, once 1, stays 1 across any further
create_obs_vector call and is cleared only by reset_obs_vector. -/
theorem history_observation_spec :
    (∀ all_hosts nondecoy : List String,
        (dynamic_cyberwheel_obs_init all_hosts nondecoy).obs_vec.len
          = 2 * all_hosts.length)
  ∧ (∀ (h : HistoryObservation) (alerts : List Alert),
        (create_obs_vector h alerts).obs_vec.len = h.obs_vec.len)
  ∧ (∀ (h : HistoryObservation) (alerts : List Alert) (i : Nat),
        i < h.obs_vec.len / 2 →
        (((create_obs_vector h alerts).obs_vec.val i = 1 ↔
            ∃ a ∈ alerts, ∃ nm, a.src_host = some nm ∧
              List.lookup nm h.mapping = some i)
          ∧ ((create_obs_vector h alerts).obs_vec.val i = 1 ∨
             (create_obs_vector h alerts).obs_vec.val i = 0)))
  ∧ (∀ (h : HistoryObservation) (alerts : List Alert) (i : Nat),
        h.obs_vec.len / 2 ≤ i → h.obs_vec.val i = 1 →
        (create_obs_vector h alerts).obs_vec.val i = 1)
  ∧ (∀ (h : HistoryObservation) (i : Nat),
        (reset_obs_vector h).obs_vec.val i = 0) := by
  refine ⟨fun all_hosts nondecoy => rfl, create_obs_vector_len, ?_, ?_,
    fun h i => rfl⟩
  · intro h alerts i hi
    rw [create_obs_vector_val]
    have hpt : ∀ a : Alert,
        ((match a.src_host with
          | some nm =>
            match List.lookup nm h.mapping with
            | some index => i == index || i == index + h.obs_vec.len / 2
            | Option.none => false
          | Option.none => false) = true)
        ↔ ∃ nm, a.src_host = some nm ∧ List.lookup nm h.mapping = some i := by
      intro a
      cases hsrc : a.src_host with
      | none => simp
      | some nm =>
        cases hlk : List.lookup nm h.mapping with
        | none => simp [hlk]
        | some index =>
          simp only [hlk]
          constructor
          · intro hor
            rcases (Bool.or_eq_true _ _).mp hor with h1 | h2
            · have : i = index := by simpa using h1
              exact ⟨nm, rfl, by rw [hlk, this]⟩
            · have : i = index + h.obs_vec.len / 2 := by simpa using h2
              omega
          · rintro ⟨nm', hnm', hlk'⟩
            have hnm : nm' = nm := by
              injection hnm' with hx
              exact hx.symm
            rw [hnm, hlk] at hlk'
            have : index = i := by simpa using hlk'
            simp [this]
    by_cases hany : (alerts.any (fun alert =>
        match alert.src_host with
        | some nm =>
          match List.lookup nm h.mapping with
          | some index => i == index || i == index + h.obs_vec.len / 2
          | Option.none => false
        | Option.none => false)) = true
    · rw [if_pos hany]
      refine ⟨⟨fun _ => ?_, fun _ => rfl⟩, Or.inl rfl⟩
      obtain ⟨a, ha, hp⟩ := List.any_eq_true.mp hany
      exact ⟨a, ha, (hpt a).mp hp⟩
    · rw [if_neg hany, if_pos hi]
      constructor
      · constructor
        · intro habs
          exact absurd habs (by simp)
        · rintro ⟨a, ha, nm, hnm, hlk⟩
          exact absurd (List.any_eq_true.mpr ⟨a, ha, (hpt a).mpr ⟨nm, hnm, hlk⟩⟩)
            hany
      · exact Or.inr rfl
  · intro h alerts i hi hval
    rw [create_obs_vector_val]
    have : ¬ i < h.obs_vec.len / 2 := Nat.not_lt.mpr hi
    by_cases hany : (alerts.any (fun alert =>
        match alert.src_host with
        | some nm =>
          match List.lookup nm h.mapping with
          | some index => i == index || i == index + h.obs_vec.len / 2
          | Option.none => false
        | Option.none => false)) = true
    · rw [if_pos hany]
    · rw [if_neg hany, if_neg this]
      exact hval

/-- C8, witness: over two hosts (length 4, barrier 2), an alert from h0
flags cells 0 and 2; a following step with an alert from h1 clears cell 0,
flags cells 1 and 3, and keeps the history bit in cell 2. -/
theorem history_observation_spec_witness :
    (create_obs_vector (create_obs_vector two_host_obs [alert0]) [alert1]).obs_vec.val 2
        = 1 ∧
    (create_obs_vector two_host_obs [alert0]).obs_vec.val 0 = 1 := by
  constructor
  · exact history_observation_spec.2.2.2.1 (create_obs_vector two_host_obs [alert0])
      [alert1] 2 (by rw [history_observation_spec.2.1]; decide) rfl
  · exact ((history_observation_spec.2.2.1 two_host_obs [alert0] 0 (by decide)).1).mpr
      ⟨alert0, by decide, "h0", rfl, rfl⟩

/-! ## C2 and C7: the red agent -/

theorem lookup_cons_self {α : Type} (k : String) (v : α)
    (rest : List (String × α)) :
    List.lookup k ((k, v) :: rest) = some v := by
  simp [List.lookup]

theorem lookup_cons_ne {α : Type} (n k : String) (v : α)
    (rest : List (String × α)) (h : n ≠ k) :
    List.lookup n ((k, v) :: rest) = List.lookup n rest := by
  have hb : (n == k) = false := beq_eq_false_iff_ne.mpr h
  simp [List.lookup, hb]

theorem dict_modify_cons {α : Type} (k : String) (f : α → α) (k' : String)
    (v : α) (rest : List (String × α)) :
    dict_modify ((k', v) :: rest) k f
      = (if k' = k then (k', f v) else (k', v)) :: dict_modify rest k f := by
  by_cases hk : k' = k <;> simp [dict_modify, hk]

theorem lookup_dict_modify {α : Type} (k : String) (f : α → α) :
    ∀ (d : List (String × α)) (n : String),
      List.lookup n (dict_modify d k f)
        = if n = k then (List.lookup n d).map f else List.lookup n d := by
  intro d
  induction d with
  | nil =>
    intro n
    simp [dict_modify]
  | cons p rest ih =>
    intro n
    rcases p with ⟨k', v⟩
    rw [dict_modify_cons]
    by_cases hk : k' = k
    · rw [if_pos hk]
      subst hk
      by_cases hn : n = k'
      · subst hn
        rw [lookup_cons_self, lookup_cons_self, if_pos rfl]
        rfl
      · rw [lookup_cons_ne n k' _ _ hn, lookup_cons_ne n k' _ _ hn, ih]
    · rw [if_neg hk]
      by_cases hn : n = k'
      · subst hn
        rw [lookup_cons_self, lookup_cons_self, if_neg hk]
      · rw [lookup_cons_ne n k' _ _ hn, lookup_cons_ne n k' _ _ hn, ih]

theorem overwrite_cons {α : Type} (k : String) (v : α) (k' : String) (w : α)
    (rest : List (String × α)) :
    ((k', w) :: rest).map (fun p => if p.1 == k then (k, v) else p)
      = (if k' = k then (k, v) else (k', w))
          :: rest.map (fun p => if p.1 == k then (k, v) else p) := by
  by_cases hk : k' = k <;> simp [hk]

theorem lookup_overwrite_ne {α : Type} (k : String) (v : α) :
    ∀ (d : List (String × α)) (n : String), n ≠ k →
      List.lookup n (d.map (fun p => if p.1 == k then (k, v) else p))
        = List.lookup n d := by
  intro d
  induction d with
  | nil => intro n _; rfl
  | cons p rest ih =>
    intro n hn
    rcases p with ⟨k', w⟩
    rw [overwrite_cons]
    by_cases hk : k' = k
    · rw [if_pos hk]
      subst hk
      rw [lookup_cons_ne n k' _ _ hn, lookup_cons_ne n k' _ _ hn, ih _ hn]
    · rw [if_neg hk]
      by_cases hnk' : n = k'
      · subst hnk'
        rw [lookup_cons_self, lookup_cons_self]
      · rw [lookup_cons_ne n k' _ _ hnk', lookup_cons_ne n k' _ _ hnk', ih _ hn]

theorem lookup_overwrite_eq {α : Type} (k : String) (v : α) :
    ∀ d : List (String × α), (d.any fun p => p.1 == k) = true →
      List.lookup k (d.map (fun p => if p.1 == k then (k, v) else p))
        = some v := by
  intro d
  induction d with
  | nil => intro h; simp at h
  | cons p rest ih =>
    intro h
    rcases p with ⟨k', w⟩
    rw [overwrite_cons]
    by_cases hk : k' = k
    · rw [if_pos hk, lookup_cons_self]
    · rw [if_neg hk]
      rw [List.any_cons] at h
      have h2 : (rest.any fun p => p.1 == k) = true := by
        rcases (Bool.or_eq_true _ _).mp h with h1 | h2
        · exact absurd (by simpa using h1) hk
        · exact h2
      have hk' : k ≠ k' := fun hx => hk hx.symm
      rw [lookup_cons_ne k k' _ _ hk', ih h2]

theorem lookup_append_pair {α : Type} (k : String) (v : α) :
    ∀ (d : List (String × α)) (n : String),
      List.lookup n (d ++ [(k, v)])
        = match List.lookup n d with
          | some w => some w
          | Option.none => if n = k then some v else Option.none := by
  intro d
  induction d with
  | nil =>
    intro n
    by_cases hn : n = k
    · subst hn
      simp [List.lookup]
    · have hb : (n == k) = false := beq_eq_false_iff_ne.mpr hn
      simp [List.lookup, hb, hn]
  | cons p rest ih =>
    intro n
    rcases p with ⟨k', w⟩
    rw [List.cons_append]
    by_cases hn : n = k'
    · subst hn
      rw [lookup_cons_self, lookup_cons_self]
    · rw [lookup_cons_ne n k' _ _ hn, lookup_cons_ne n k' _ _ hn, ih]

theorem lookup_none_of_any_false {α : Type} :
    ∀ (d : List (String × α)) (k : String),
      (d.any fun p => p.1 == k) = false → List.lookup k d = Option.none := by
  intro d
  induction d with
  | nil => intro k _; rfl
  | cons p rest ih =>
    intro k h
    rcases p with ⟨k', v⟩
    rw [List.any_cons] at h
    have h1 : ¬(k' = k) := by
      intro hx
      rw [hx] at h
      simp at h
    have h2 : (rest.any fun p => p.1 == k) = false := by
      cases hb : (rest.any fun p => p.1 == k) with
      | false => rfl
      | true => rw [hb] at h; simp at h
    have hk' : k ≠ k' := fun hx => h1 hx.symm
    rw [lookup_cons_ne k k' _ _ hk', ih _ h2]

theorem lookup_dict_insert {α : Type} (k : String) (v : α)
    (d : List (String × α)) (n : String) :
    List.lookup n (dict_insert d k v)
      = if n = k then some v else List.lookup n d := by
  unfold dict_insert
  by_cases hany : (d.any fun p => p.1 == k) = true
  · rw [if_pos hany]
    by_cases hn : n = k
    · rw [if_pos hn, hn]
      exact lookup_overwrite_eq k v d hany
    · rw [if_neg hn]
      exact lookup_overwrite_ne k v d n hn
  · rw [if_neg hany]
    rw [lookup_append_pair]
    by_cases hn : n = k
    · have hfalse : (d.any fun p => p.1 == k) = false := by
        cases hb : (d.any fun p => p.1 == k) with
        | false => rfl
        | true => exact absurd hb hany
      rw [hn, lookup_none_of_any_false d k hfalse]
    · cases hl : List.lookup n d with
      | none => simp [hn]
      | some w => simp [hn]

theorem hosts_mono_refl (s : AgentState) : hosts_mono s s :=
  fun _ i h => ⟨i, h, le_refl _⟩

theorem hosts_mono_trans {s1 s2 s3 : AgentState}
    (h12 : hosts_mono s1 s2) (h23 : hosts_mono s2 s3) : hosts_mono s1 s3 := by
  intro n i h
  obtain ⟨i2, hl2, hle2⟩ := h12 n i h
  obtain ⟨i3, hl3, hle3⟩ := h23 n i2 hl2
  exact ⟨i3, hl3, le_trans hle2 hle3⟩

theorem hosts_mono_of_hosts_eq {s s' : AgentState} (h : s'.hosts = s.hosts) :
    hosts_mono s s' :=
  fun n i hl => ⟨i, by rw [h]; exact hl, le_refl _⟩

theorem hosts_mono_modify {s s' : AgentState} (k : String)
    (f : KnownHostInfo → KnownHostInfo)
    (hf : ∀ i, i.last_step ≤ (f i).last_step)
    (hs : s'.hosts = dict_modify s.hosts k f) : hosts_mono s s' := by
  intro n i h
  rw [hs, lookup_dict_modify]
  by_cases hn : n = k
  · refine ⟨f i, ?_, hf i⟩
    rw [if_pos hn, h]
    rfl
  · refine ⟨i, ?_, le_refl _⟩
    rw [if_neg hn]
    exact h

theorem hosts_mono_insert {s s' : AgentState} (k : String) (v : KnownHostInfo)
    (hnew : List.lookup k s.hosts = Option.none)
    (hs : s'.hosts = dict_insert s.hosts k v) : hosts_mono s s' := by
  intro n i h
  rw [hs, lookup_dict_insert]
  by_cases hn : n = k
  · rw [hn] at h
    rw [h] at hnew
    exact absurd hnew (by simp)
  · refine ⟨i, ?_, le_refl _⟩
    rw [if_neg hn]
    exact h

theorem ping_sweep_host_step_mono (st : AgentState) (hn : String) :
    hosts_mono st (ping_sweep_host_step st hn) := by
  unfold ping_sweep_host_step
  cases hlk : List.lookup hn st.hosts with
  | some j =>
    exact hosts_mono_modify hn (fun i => { i with ping_sweeped := true })
      (fun i => le_refl _) rfl
  | none => exact hosts_mono_insert hn _ hlk rfl

theorem ping_sweep_fold_mono :
    ∀ (l : List String) (s : AgentState),
      hosts_mono s (l.foldl ping_sweep_host_step s) := by
  intro l
  induction l with
  | nil => intro s; exact hosts_mono_refl s
  | cons x xs ih =>
    intro s
    rw [List.foldl_cons]
    exact hosts_mono_trans (ping_sweep_host_step_mono s x)
      (ih (ping_sweep_host_step s x))

theorem ping_sweep_update_mono (env : RedEnv) (s : AgentState) (target : String) :
    hosts_mono s (ping_sweep_update env s target) :=
  ping_sweep_fold_mono _ s

theorem add_known_host_step_mono (st : AgentState) (hn : String) :
    hosts_mono st (add_known_host_step st hn) := by
  unfold add_known_host_step
  by_cases hlk : (List.lookup hn st.hosts).isNone = true
  · rw [if_pos hlk]
    exact hosts_mono_insert hn _ (Option.isNone_iff_eq_none.mp hlk) rfl
  · rw [if_neg hlk]
    exact hosts_mono_refl st

theorem add_known_fold_mono :
    ∀ (l : List String) (s : AgentState),
      hosts_mono s (l.foldl add_known_host_step s) := by
  intro l
  induction l with
  | nil => intro s; exact hosts_mono_refl s
  | cons x xs ih =>
    intro s
    rw [List.foldl_cons]
    exact hosts_mono_trans (add_known_host_step_mono s x)
      (ih (add_known_host_step s x))

theorem add_host_info_subnet_scanned_mono (env : RedEnv) (s : AgentState)
    (subnet_name : String) :
    hosts_mono s (add_host_info_subnet_scanned env s subnet_name) := by
  have h1 : hosts_mono s
      (if (List.lookup subnet_name s.subnets).isNone then
        { s with subnets := dict_insert s.subnets subnet_name true }
      else s) := by
    by_cases hc : ((List.lookup subnet_name s.subnets).isNone) = true
    · rw [if_pos hc]
      exact hosts_mono_of_hosts_eq rfl
    · rw [if_neg hc]
      exact hosts_mono_refl s
  exact hosts_mono_trans h1 (add_known_fold_mono _ _)

theorem add_host_info_type_mono (s : AgentState) (host_name host_type : String) :
    hosts_mono s (add_host_info_type s host_name host_type) := by
  unfold add_host_info_type
  by_cases h1 : (str_contains (py_lower host_type) "server") = true
  · rw [if_pos h1]
    exact hosts_mono_modify host_name (fun i => { i with type := "Server" })
      (fun i => le_refl _) rfl
  · rw [if_neg h1]
    by_cases h2 : (str_contains (py_lower host_type) "workstation") = true
    · rw [if_pos h2]
      exact hosts_mono_modify host_name (fun i => { i with type := "User" })
        (fun i => le_refl _) rfl
    · rw [if_neg h2]
      exact hosts_mono_modify host_name (fun i => { i with type := "Unknown" })
        (fun i => le_refl _) rfl

theorem act_success_updates_mono (env : RedEnv) (s1 : AgentState)
    (target : String) (action : RedActionType) :
    hosts_mono s1 (act_success_updates env s1 target action) := by
  have step2 : ∀ s : AgentState, hosts_mono s
      (if !(act_no_update.contains action) then
        { s with hosts :=
                   dict_modify s.hosts target KnownHostInfo.update_killchain_step }
      else s) := by
    intro s
    by_cases hc : (!(act_no_update.contains action)) = true
    · rw [if_pos hc]
      refine hosts_mono_modify target KnownHostInfo.update_killchain_step
        (fun i => ?_) rfl
      show i.last_step ≤ i.last_step + 1
      omega
    · rw [if_neg hc]
      exact hosts_mono_refl s
  have step4 : ∀ s : AgentState, hosts_mono s
      (if action == RedActionType.impact then
        (if (List.lookup target (dict_modify s.hosts target
              (fun i => { i with impacted := true }))).map (fun i => i.type)
            == some "Server" then
           { s with hosts :=
                      dict_modify s.hosts target (fun i => { i with impacted := true }),
                    unimpacted_servers := hsl_remove s.unimpacted_servers target }
         else
           { s with hosts :=
                      dict_modify s.hosts target (fun i => { i with impacted := true }) })
      else s) := by
    intro s
    by_cases hc : (action == RedActionType.impact) = true
    · rw [if_pos hc]
      have hmod : hosts_mono s
          { s with hosts :=
                     dict_modify s.hosts target (fun i => { i with impacted := true }) } :=
        hosts_mono_modify target (fun i => { i with impacted := true })
          (fun i => le_refl _) rfl
      by_cases hsrv : ((List.lookup target (dict_modify s.hosts target
            (fun i => { i with impacted := true }))).map (fun i => i.type)
          == some "Server") = true
      · rw [if_pos hsrv]
        exact hosts_mono_trans hmod (hosts_mono_of_hosts_eq rfl)
      · rw [if_neg hsrv]
        exact hmod
    · rw [if_neg hc]
      exact hosts_mono_refl s
  cases action with
  | pingsweep =>
    exact hosts_mono_trans (step2 s1)
      (hosts_mono_trans (add_host_info_subnet_scanned_mono env _ _) (step4 _))
  | discovery =>
    exact hosts_mono_trans (step2 s1)
      (hosts_mono_trans (add_host_info_type_mono _ target _) (step4 _))
  | portscan => exact hosts_mono_trans (step2 s1) (step4 _)
  | lateral_movement => exact hosts_mono_trans (step2 s1) (step4 _)
  | privilege_escalation => exact hosts_mono_trans (step2 s1) (step4 _)
  | impact => exact hosts_mono_trans (step2 s1) (step4 _)

theorem ping_sweep_host_step_hosts_mod (st : AgentState) (hn' : String)
    (h : (List.lookup hn' st.hosts).isSome = true) :
    (ping_sweep_host_step st hn').hosts =
      dict_modify st.hosts hn' (fun i => { i with ping_sweeped := true }) := by
  obtain ⟨j, hj⟩ := Option.isSome_iff_exists.mp h
  unfold ping_sweep_host_step
  rw [hj]

theorem ping_sweep_host_step_hosts_ins (st : AgentState) (hn' : String)
    (h : List.lookup hn' st.hosts = Option.none) :
    (ping_sweep_host_step st hn').hosts =
      dict_insert st.hosts hn' { ping_sweeped := true } := by
  unfold ping_sweep_host_step
  rw [h]

theorem ping_sweep_step_keeps (st : AgentState) (hn' hn : String)
    (i : KnownHostInfo) (h : List.lookup hn st.hosts = some i)
    (hsw : i.ping_sweeped = true) :
    ∃ i', List.lookup hn (ping_sweep_host_step st hn').hosts = some i' ∧
      i'.ping_sweeped = true := by
  by_cases hc : (List.lookup hn' st.hosts).isSome = true
  · rw [ping_sweep_host_step_hosts_mod st hn' hc, lookup_dict_modify]
    by_cases hne : hn = hn'
    · rw [if_pos hne, h]
      exact ⟨{ i with ping_sweeped := true }, rfl, rfl⟩
    · rw [if_neg hne, h]
      exact ⟨i, rfl, hsw⟩
  · have hnone : List.lookup hn' st.hosts = Option.none :=
      Option.not_isSome_iff_eq_none.mp hc
    rw [ping_sweep_host_step_hosts_ins st hn' hnone, lookup_dict_insert]
    by_cases hne : hn = hn'
    · rw [if_pos hne]
      exact ⟨{ ping_sweeped := true }, rfl, rfl⟩
    · rw [if_neg hne, h]
      exact ⟨i, rfl, hsw⟩

theorem ping_sweep_fold_keeps :
    ∀ (l : List String) (st : AgentState) (hn : String) (i : KnownHostInfo),
      List.lookup hn st.hosts = some i → i.ping_sweeped = true →
      ∃ i', List.lookup hn (l.foldl ping_sweep_host_step st).hosts = some i' ∧
        i'.ping_sweeped = true := by
  intro l
  induction l with
  | nil => intro st hn i h hsw; exact ⟨i, h, hsw⟩
  | cons x xs ih =>
    intro st hn i h hsw
    rw [List.foldl_cons]
    obtain ⟨i', h', hsw'⟩ := ping_sweep_step_keeps st x hn i h hsw
    exact ih _ hn i' h' hsw'

theorem ping_sweep_step_sweeps (st : AgentState) (hn : String) :
    ∃ i', List.lookup hn (ping_sweep_host_step st hn).hosts = some i' ∧
      i'.ping_sweeped = true := by
  by_cases hc : (List.lookup hn st.hosts).isSome = true
  · obtain ⟨j, hj⟩ := Option.isSome_iff_exists.mp hc
    rw [ping_sweep_host_step_hosts_mod st hn hc, lookup_dict_modify, if_pos rfl,
      hj]
    exact ⟨{ j with ping_sweeped := true }, rfl, rfl⟩
  · have hnone : List.lookup hn st.hosts = Option.none :=
      Option.not_isSome_iff_eq_none.mp hc
    rw [ping_sweep_host_step_hosts_ins st hn hnone, lookup_dict_insert,
      if_pos rfl]
    exact ⟨{ ping_sweeped := true }, rfl, rfl⟩

theorem ping_sweep_fold_sweeps :
    ∀ (l : List String) (st : AgentState) (hn : String), hn ∈ l →
      ∃ i', List.lookup hn (l.foldl ping_sweep_host_step st).hosts = some i' ∧
        i'.ping_sweeped = true := by
  intro l
  induction l with
  | nil => intro st hn h; exact absurd h (List.not_mem_nil hn)
  | cons x xs ih =>
    intro st hn h
    rw [List.foldl_cons]
    rcases List.mem_cons.mp h with heq | hmem
    · subst heq
      obtain ⟨i', h', hsw'⟩ := ping_sweep_step_sweeps st hn
      exact ping_sweep_fold_keeps xs _ hn i' h' hsw'
    · exact ih _ hn hmem

theorem ping_sweep_update_sweeps (env : RedEnv) (s : AgentState)
    (target hn : String) (h : hn ∈ env.subnet_hosts (env.subnet_of target)) :
    ∃ i', List.lookup hn (ping_sweep_update env s target).hosts = some i' ∧
      i'.ping_sweeped = true :=
  ping_sweep_fold_sweeps _ s hn h

theorem run_action_no_info (env : RedEnv) (s : AgentState) (target : String)
    (hinfo : List.lookup target s.hosts = Option.none) :
    run_action env s target = .error "KeyError: unknown target host" := by
  unfold run_action
  rw [hinfo]
  rfl

theorem run_action_unswept (env : RedEnv) (s : AgentState) (target : String)
    (info : KnownHostInfo) (hinfo : List.lookup target s.hosts = some info)
    (hsw : info.ping_sweeped = false) :
    run_action env s target =
      .ok (.pingsweep, true, ping_sweep_update env s target) := by
  unfold run_action
  rw [hinfo]
  simp only [Bind.bind, Except.bind, pure, Except.pure, hsw, Bool.not_false, if_true]

theorem run_action_unscanned (env : RedEnv) (s : AgentState) (target : String)
    (info : KnownHostInfo) (hinfo : List.lookup target s.hosts = some info)
    (hsw : info.ping_sweeped = true) (hps : info.ports_scanned = false) :
    run_action env s target =
      .ok (.portscan, true,
        { s with hosts :=
                   dict_modify s.hosts target (fun i => { i with ports_scanned := true }) }) := by
  unfold run_action
  rw [hinfo]
  simp only [Bind.bind, Except.bind, pure, Except.pure, hsw, hps, Bool.not_true,
    Bool.not_false, Bool.false_eq_true, if_false, if_true]

theorem run_action_lateral (env : RedEnv) (s : AgentState) (target : String)
    (info : KnownHostInfo) (hinfo : List.lookup target s.hosts = some info)
    (hsw : info.ping_sweeped = true) (hps : info.ports_scanned = true)
    (hcur : s.current_host ≠ target) :
    run_action env s target =
      .ok (.lateral_movement, env.valid target .lateral_movement,
        if env.valid target .lateral_movement then
          { s with current_host := target }
        else s) := by
  unfold run_action
  rw [hinfo]
  have hbne : (s.current_host != target) = true := bne_iff_ne.mpr hcur
  simp only [Bind.bind, Except.bind, pure, Except.pure, hsw, hps, Bool.not_true,
    Bool.false_eq_true, if_false, hbne, if_true]

theorem run_action_killchain (env : RedEnv) (s : AgentState) (target : String)
    (info : KnownHostInfo) (a : RedActionType)
    (hinfo : List.lookup target s.hosts = some info)
    (hsw : info.ping_sweeped = true) (hps : info.ports_scanned = true)
    (hcur : s.current_host = target)
    (hget : s.killchain.get?
        (min info.get_next_step ((s.killchain.length : Int) - 1)).toNat
      = some a) :
    run_action env s target = .ok (a, env.valid target a, s) := by
  unfold run_action
  rw [hinfo]
  have hbne : (s.current_host != target) = false := by
    rw [hcur]
    exact bne_self_eq_false target
  simp only [Bind.bind, Except.bind, pure, Except.pure, hsw, hps, Bool.not_true,
    Bool.false_eq_true, if_false, hbne, hget]

theorem run_action_killchain_none (env : RedEnv) (s : AgentState)
    (target : String) (info : KnownHostInfo)
    (hinfo : List.lookup target s.hosts = some info)
    (hsw : info.ping_sweeped = true) (hps : info.ports_scanned = true)
    (hcur : s.current_host = target)
    (hget : s.killchain.get?
        (min info.get_next_step ((s.killchain.length : Int) - 1)).toNat
      = Option.none) :
    run_action env s target = .error "IndexError: killchain" := by
  unfold run_action
  rw [hinfo]
  have hbne : (s.current_host != target) = false := by
    rw [hcur]
    exact bne_self_eq_false target
  simp only [Bind.bind, Except.bind, pure, Except.pure, hsw, hps, Bool.not_true,
    Bool.false_eq_true, if_false, hbne, hget]

theorem run_action_mono (env : RedEnv) (s : AgentState) (target : String)
    (a : RedActionType) (b : Bool) (s1 : AgentState)
    (h : run_action env s target = .ok (a, b, s1)) : hosts_mono s s1 := by
  cases hinfo : List.lookup target s.hosts with
  | none =>
    rw [run_action_no_info env s target hinfo] at h
    exact absurd h (by simp)
  | some info =>
    by_cases hsw : info.ping_sweeped = false
    · rw [run_action_unswept env s target info hinfo hsw] at h
      simp only [Except.ok.injEq, Prod.mk.injEq] at h
      obtain ⟨h1, h2, h3⟩ := h
      rw [← h3]
      exact ping_sweep_update_mono env s target
    · have hsw' : info.ping_sweeped = true := by
        revert hsw
        cases info.ping_sweeped <;> simp
      by_cases hps : info.ports_scanned = false
      · rw [run_action_unscanned env s target info hinfo hsw' hps] at h
        simp only [Except.ok.injEq, Prod.mk.injEq] at h
        obtain ⟨h1, h2, h3⟩ := h
        rw [← h3]
        exact hosts_mono_modify target (fun i => { i with ports_scanned := true })
          (fun i => le_refl _) rfl
      · have hps' : info.ports_scanned = true := by
          revert hps
          cases info.ports_scanned <;> simp
        by_cases hcur : s.current_host = target
        · cases hget : s.killchain.get?
              (min info.get_next_step ((s.killchain.length : Int) - 1)).toNat with
          | some act =>
            rw [run_action_killchain env s target info act hinfo hsw' hps' hcur
              hget] at h
            simp only [Except.ok.injEq, Prod.mk.injEq] at h
            obtain ⟨h1, h2, h3⟩ := h
            rw [← h3]
            exact hosts_mono_refl s
          | none =>
            rw [run_action_killchain_none env s target info hinfo hsw' hps' hcur
              hget] at h
            exact absurd h (by simp)
        · rw [run_action_lateral env s target info hinfo hsw' hps' hcur] at h
          simp only [Except.ok.injEq, Prod.mk.injEq] at h
          obtain ⟨h1, h2, h3⟩ := h
          rw [← h3]
          by_cases hv : env.valid target RedActionType.lateral_movement = true
          · rw [if_pos hv]
            exact hosts_mono_of_hosts_eq rfl
          · rw [if_neg hv]
            exact hosts_mono_refl s

theorem run_action_failure_state (env : RedEnv) (s : AgentState)
    (target : String) (a : RedActionType) (s1 : AgentState)
    (h : run_action env s target = .ok (a, false, s1)) : s1 = s := by
  cases hinfo : List.lookup target s.hosts with
  | none =>
    rw [run_action_no_info env s target hinfo] at h
    exact absurd h (by simp)
  | some info =>
    by_cases hsw : info.ping_sweeped = false
    · rw [run_action_unswept env s target info hinfo hsw] at h
      simp only [Except.ok.injEq, Prod.mk.injEq] at h
      exact absurd h.2.1 (by simp)
    · have hsw' : info.ping_sweeped = true := by
        revert hsw
        cases info.ping_sweeped <;> simp
      by_cases hps : info.ports_scanned = false
      · rw [run_action_unscanned env s target info hinfo hsw' hps] at h
        simp only [Except.ok.injEq, Prod.mk.injEq] at h
        exact absurd h.2.1 (by simp)
      · have hps' : info.ports_scanned = true := by
          revert hps
          cases info.ports_scanned <;> simp
        by_cases hcur : s.current_host = target
        · cases hget : s.killchain.get?
              (min info.get_next_step ((s.killchain.length : Int) - 1)).toNat with
          | some act =>
            rw [run_action_killchain env s target info act hinfo hsw' hps' hcur
              hget] at h
            simp only [Except.ok.injEq, Prod.mk.injEq] at h
            exact h.2.2.symm
          | none =>
            rw [run_action_killchain_none env s target info hinfo hsw' hps' hcur
              hget] at h
            exact absurd h (by simp)
        · rw [run_action_lateral env s target info hinfo hsw' hps' hcur] at h
          simp only [Except.ok.injEq, Prod.mk.injEq] at h
          obtain ⟨h1, h2, h3⟩ := h
          rw [h2] at h3
          rw [if_neg (by simp)] at h3
          exact h3.symm

theorem track_new_host_preserve (env : RedEnv) (st : AgentState) (hn : String)
    (htr : hosts_keys_tracked st) :
    (∀ (n : String) (i : KnownHostInfo), List.lookup n st.hosts = some i →
       List.lookup n (track_new_host env st hn).hosts = some i) ∧
    hosts_keys_tracked (track_new_host env st hn) := by
  unfold track_new_host
  by_cases hc : st.tracked_hosts.contains hn = true
  · rw [if_pos hc]
    exact ⟨fun n i h => h, htr⟩
  · rw [if_neg hc]
    have hmem : hn ∉ st.tracked_hosts := by
      intro hmem
      exact hc (by simp [hmem])
    by_cases hsn : (List.lookup (env.subnet_of hn) st.subnets).getD false = true
    · rw [if_pos hsn]
      have hnone : List.lookup hn st.hosts = Option.none := by
        cases hx : List.lookup hn st.hosts with
        | none => rfl
        | some j =>
          exact absurd (htr hn (by rw [hx]; rfl)) hmem
      constructor
      · intro n i h
        show List.lookup n (dict_insert st.hosts hn {}) = some i
        rw [lookup_dict_insert]
        by_cases hne : n = hn
        · rw [hne] at h
          rw [h] at hnone
          exact absurd hnone (by simp)
        · rw [if_neg hne]
          exact h
      · intro n hsome
        show n ∈ st.tracked_hosts ++ [hn]
        have hl : List.lookup n (dict_insert st.hosts hn
            ({} : KnownHostInfo)) = if n = hn then some {} else
              List.lookup n st.hosts := lookup_dict_insert hn {} st.hosts n
        by_cases hne : n = hn
        · rw [hne]
          exact List.mem_append.mpr (Or.inr (List.mem_singleton.mpr rfl))
        · rw [hl, if_neg hne] at hsome
          exact List.mem_append.mpr (Or.inl (htr n hsome))
    · rw [if_neg hsn]
      refine ⟨fun n i h => h, ?_⟩
      intro n hsome
      exact List.mem_append.mpr (Or.inl (htr n hsome))

theorem hnc_fold_preserve (env : RedEnv) :
    ∀ (l : List String) (st : AgentState), hosts_keys_tracked st →
      (∀ (n : String) (i : KnownHostInfo), List.lookup n st.hosts = some i →
         List.lookup n (l.foldl (track_new_host env) st).hosts = some i) ∧
      hosts_keys_tracked (l.foldl (track_new_host env) st) := by
  intro l
  induction l with
  | nil => intro st htr; exact ⟨fun n i h => h, htr⟩
  | cons x xs ih =>
    intro st htr
    rw [List.foldl_cons]
    obtain ⟨hpres, htr'⟩ := track_new_host_preserve env st x htr
    obtain ⟨hpres', htr''⟩ := ih (track_new_host env st x) htr'
    exact ⟨fun n i h => hpres' n i (hpres n i h), htr''⟩

theorem handle_network_change_preserve (env : RedEnv) (s : AgentState)
    (htr : hosts_keys_tracked s) :
    (∀ (n : String) (i : KnownHostInfo), List.lookup n s.hosts = some i →
       List.lookup n (handle_network_change env s).hosts = some i) ∧
    hosts_keys_tracked (handle_network_change env s) :=
  hnc_fold_preserve env env.network_hosts s htr

theorem handle_network_change_mono (env : RedEnv) (s : AgentState)
    (htr : hosts_keys_tracked s) :
    hosts_mono s (handle_network_change env s) :=
  fun n i h =>
    ⟨i, (handle_network_change_preserve env s htr).1 n i h, le_refl _⟩

theorem act_sel_error (env : RedEnv) (strategy : RedStrategyKind)
    (s : AgentState) (choice : Nat) (e : String)
    (hsel : select_target strategy (handle_network_change env s) choice
      = .error e) :
    act env strategy s choice = .error e := by
  simp [act, hsel, Bind.bind, Except.bind]

theorem act_sel_none (env : RedEnv) (strategy : RedStrategyKind)
    (s : AgentState) (choice : Nat)
    (hsel : select_target strategy (handle_network_change env s) choice
      = .ok Option.none) :
    act env strategy s choice
      = .error "AttributeError: NoneType has no attribute name" := by
  simp [act, hsel, Bind.bind, Except.bind]

theorem act_run_error (env : RedEnv) (strategy : RedStrategyKind)
    (s : AgentState) (choice : Nat) (t e : String)
    (hsel : select_target strategy (handle_network_change env s) choice
      = .ok (some t))
    (hrun : run_action env (handle_network_change env s) t = .error e) :
    act env strategy s choice = .error e := by
  simp [act, hsel, hrun, Bind.bind, Except.bind, pure, Except.pure]

theorem act_eq (env : RedEnv) (strategy : RedStrategyKind) (s : AgentState)
    (choice : Nat) (t : String) (a : RedActionType) (b : Bool)
    (s1 : AgentState)
    (hsel : select_target strategy (handle_network_change env s) choice
      = .ok (some t))
    (hrun : run_action env (handle_network_change env s) t = .ok (a, b, s1)) :
    act env strategy s choice
      = .ok ((if b then act_success_updates env s1 t a else s1), a, b) := by
  cases b with
  | true =>
    simp [act, hsel, hrun, Bind.bind, Except.bind, pure, Except.pure]
  | false =>
    simp [act, hsel, hrun, Bind.bind, Except.bind, pure, Except.pure]

theorem act_eq_inv (env : RedEnv) (strategy : RedStrategyKind) (s : AgentState)
    (choice : Nat) (s' : AgentState) (action : RedActionType) (success : Bool)
    (h : act env strategy s choice = .ok (s', action, success)) :
    ∃ (target : String) (s1 : AgentState),
      run_action env (handle_network_change env s) target
        = .ok (action, success, s1) ∧
      s' = (if success then act_success_updates env s1 target action else s1) := by
  cases hsel : select_target strategy (handle_network_change env s) choice with
  | error e =>
    rw [act_sel_error env strategy s choice e hsel] at h
    exact absurd h (by simp)
  | ok tgt =>
    cases tgt with
    | none =>
      rw [act_sel_none env strategy s choice hsel] at h
      exact absurd h (by simp)
    | some t =>
      cases hrun : run_action env (handle_network_change env s) t with
      | error e =>
        rw [act_run_error env strategy s choice t e hsel hrun] at h
        exact absurd h (by simp)
      | ok p =>
        obtain ⟨a, b, s1⟩ := p
        rw [act_eq env strategy s choice t a b s1 hsel hrun] at h
        simp only [Except.ok.injEq, Prod.mk.injEq] at h
        obtain ⟨h1, h2, h3⟩ := h
        refine ⟨t, s1, ?_, ?_⟩
        · rw [← h2, ← h3]
          exact hrun
        · rw [← h1, ← h2, ← h3]

/-- C7: run_action dispatches in exactly the order PingSweep (when the
target's subnet is unswept, revealing every host connected to that subnet
into attacker knowledge), then PortScan (when the target is unscanned),
then LateralMovement (when the attacker is not on the target), and
otherwise executes killchain[min(next_step, len(killchain) - 1)] against
the target; and whenever the returned success flag is false the state is
returned unchanged, so last_step advances only on a successful attack. -/
theorem run_action_dispatch (env : RedEnv) (s : AgentState) (target : String)
    (info : KnownHostInfo) (hinfo : List.lookup target s.hosts = some info) :
    (info.ping_sweeped = false →
       run_action env s target
         = .ok (.pingsweep, true, ping_sweep_update env s target) ∧
       ∀ hn ∈ env.subnet_hosts (env.subnet_of target),
         ∃ i', List.lookup hn (ping_sweep_update env s target).hosts = some i' ∧
           i'.ping_sweeped = true) ∧
    (info.ping_sweeped = true → info.ports_scanned = false →
       run_action env s target
         = .ok (.portscan, true,
             { s with hosts := dict_modify s.hosts target (fun i => { i with ports_scanned := true }) })) ∧
    (info.ping_sweeped = true → info.ports_scanned = true →
       s.current_host ≠ target →
       run_action env s target
         = .ok (.lateral_movement, env.valid target .lateral_movement,
             if env.valid target .lateral_movement then
               { s with current_host := target }
             else s)) ∧
    (info.ping_sweeped = true → info.ports_scanned = true →
       s.current_host = target →
       ∀ a : RedActionType,
         s.killchain.get?
             (min info.get_next_step ((s.killchain.length : Int) - 1)).toNat
           = some a →
         run_action env s target = .ok (a, env.valid target a, s)) ∧
    (∀ (a : RedActionType) (s1 : AgentState),
       run_action env s target = .ok (a, false, s1) → s1 = s) := by
  refine ⟨?_, ?_, ?_, ?_, ?_⟩
  · intro hsw
    exact ⟨run_action_unswept env s target info hinfo hsw,
      fun hn h => ping_sweep_update_sweeps env s target hn h⟩
  · intro hsw hps
    exact run_action_unscanned env s target info hinfo hsw hps
  · intro hsw hps hcur
    exact run_action_lateral env s target info hinfo hsw hps hcur
  · intro hsw hps hcur a hget
    exact run_action_killchain env s target info a hinfo hsw hps hcur hget
  · intro a s1 h
    exact run_action_failure_state env s target a s1 h

/-- C7, witness: the entry host of the one-host environment has never been
swept, so the first run_action is the successful PingSweep. -/
theorem run_action_dispatch_witness :
    List.lookup "h0" one_host_entry_state.hosts
      = some ({} : KnownHostInfo) ∧
    run_action one_host_env one_host_entry_state "h0"
      = .ok (.pingsweep, true,
          ping_sweep_update one_host_env one_host_entry_state "h0") :=
  ⟨rfl,
    ((run_action_dispatch one_host_env one_host_entry_state "h0" {} rfl).1
      rfl).1⟩

/-- C2 (amended): under the tracking invariant — every host with a history
entry is in tracked_hosts — a single act never decreases any tracked host's
last_step: every host entry survives with a last_step at least as large.
(The claimed upper bound last_step ≤ len(kill_chain) - 1 is refuted
separately: update_killchain_step increments without a cap.) -/
theorem act_last_step_monotone (env : RedEnv) (strategy : RedStrategyKind)
    (s : AgentState) (choice : Nat) (s' : AgentState)
    (action : RedActionType) (success : Bool)
    (htr : hosts_keys_tracked s)
    (h : act env strategy s choice = .ok (s', action, success)) :
    hosts_mono s s' := by
  obtain ⟨target, s1, hrun, hs'⟩ :=
    act_eq_inv env strategy s choice s' action success h
  have h0 : hosts_mono s (handle_network_change env s) :=
    handle_network_change_mono env s htr
  have h1 : hosts_mono (handle_network_change env s) s1 :=
    run_action_mono env _ target action success s1 hrun
  have h2 : hosts_mono s1 s' := by
    rw [hs']
    cases success with
    | true =>
      rw [if_pos rfl]
      exact act_success_updates_mono env s1 target action
    | false =>
      rw [if_neg (by simp)]
      exact hosts_mono_refl s1
  exact hosts_mono_trans h0 (hosts_mono_trans h1 h2)

/-- C2, witness: the first act of the one-host episode (a successful
PingSweep) keeps h0's last_step at -1. -/
theorem act_last_step_monotone_witness :
    hosts_keys_tracked one_host_entry_state ∧
    act one_host_env .dfs_impact one_host_entry_state 0
      = .ok (one_host_after_sweep, .pingsweep, true) ∧
    hosts_mono one_host_entry_state one_host_after_sweep := by
  have htr : hosts_keys_tracked one_host_entry_state := by
    intro n hn
    by_cases hne : n = "h0"
    · rw [hne]
      exact List.mem_singleton.mpr rfl
    · have hnone : List.lookup n one_host_entry_state.hosts = Option.none := by
        show List.lookup n [("h0", ({} : KnownHostInfo))] = Option.none
        rw [lookup_cons_ne n "h0" ({} : KnownHostInfo) [] hne]
        rfl
      rw [hnone] at hn
      exact absurd hn (by simp)
  refine ⟨htr, rfl, ?_⟩
  exact act_last_step_monotone one_host_env .dfs_impact one_host_entry_state 0
    one_host_after_sweep .pingsweep true htr rfl

/-- C2, counterexample to the claimed bound: after six acts of the one-host
DFSImpact episode, h0's last_step is 3, strictly above
len(kill_chain) - 1 = 2 — a successful Impact on the already-impacted host
increments it past the end of the kill chain. -/
theorem act_iter_exceeds_killchain_bound :
    (act_iter one_host_env .dfs_impact 0 one_host_entry_state 6).toOption.bind
        (fun s' => (List.lookup "h0" s'.hosts).map (fun i => i.last_step))
      = some 3 ∧
    (one_host_entry_state.killchain.length : Int) - 1 = 2 ∧
    ¬ ((3 : Int) ≤ 2) :=
  ⟨rfl, rfl, by decide⟩

end CyberSim
